import Mathlib

/-!
# The qri peer-to-peer node (`p2p/node.go`)

A shallow embedding of the messaging engine of `p2p/node.go`: `SendMessage`,
`QriStreamHandler`, `handleStream`, `MakeHandlers`, `StartOnlineServices`,
`ConnectedQriProfiles`, `NewQriNode`, `ReceiveMessages` and `echoMessages`.

Conventions of the embedding.

* Everything the functions do to the outside (calls on the host, goroutines
  they start, deferred calls, log lines) is recorded, in program order, as a
  list of `Event`s.
* The outside world (network, peers, handler side effects) is a state `W`
  threaded through every external call; external calls are parameters.
* A Go function that can return an error, or fault on a nil interface, ends
  in a `GoResult`.
-/

namespace Qri

/-- Peer identities: `peer.ID` is a Go string type. -/
abbrev PeerID := String

/-- Modelled from the spec: the `MsgType` enumeration, declared outside node.go.
The six constants used by `MakeHandlers` are pairwise distinct (they are keys
of one Go map literal); every other value of the type is `MtOther tag`. -/
inductive MsgType where
  | MtPing
  | MtProfile
  | MtProfiles
  | MtDatasetInfo
  | MtDatasets
  | MtEvents
  | MtOther (tag : Nat)
  deriving DecidableEq, Repr

/-- Modelled from the spec: the `Message` envelope, declared outside node.go:
`{ Type, Payload, HangUp }`. The payload is a sequence of bytes. -/
structure Message where
  Typ : MsgType
  Payload : List Nat
  HangUp : Bool
  deriving DecidableEq, Repr

/-- What one call of `ws.receiveMessage()` gives: a message, or an error with
its text (`"EOF"` is end-of-stream). -/
inductive RecvResult where
  | msg (m : Message)
  | error (e : String)
  deriving DecidableEq, Repr

/-- Observable actions of the node, in program order. Streams and channels
are named by numbers. -/
inductive Event where
  -- The call `n.Host.NewStream(n.Context(), pid, QriProtocolID)` is reached: the
  -- attempt to open a stream to `pid`. On a nil `Host` the call itself faults.
  | newStream (pid : PeerID)
  -- `go n.handleStream(ws, replies)` on stream `s`.
  | spawnHandleStream (s : Nat) (replies : Option Nat)
  -- `ws.sendMessage(msg)` on stream `s`.
  | sendMessage (s : Nat) (msg : Message)
  -- `s.Close()`.
  | close (s : Nat)
  -- `ws.receiveMessage()` returned `r`.
  | receive (r : RecvResult)
  -- `go func() { replies <- msg }()` on the reply channel `c`.
  | postReplies (c : Nat) (msg : Message)
  -- `go func() { n.msgChan <- msg }()`.
  | postMsgChan (msg : Message)
  -- `handler(ws, msg)` for the handler registered under `t`.
  | handle (t : MsgType) (msg : Message)
  -- `log.Debugf("error receiving message: %s", ...)`.
  | logDebug (e : String)
  -- `log.Infof("peer %s sent unrecognized message type ...")`.
  | logInfo (t : MsgType)
  -- `bootstrapped(peer)`.
  | bootstrapped (peer : String)
  -- `go func() { pInfo := <-bsPeers; bootstrapped(pInfo.ID.Pretty()) }()`.
  | spawnBootstrapWaiter
  -- `n.StartDiscovery(bsPeers)`.
  | startDiscovery
  -- `node.Host.SetStreamHandler(QriProtocolID, node.QriStreamHandler)`.
  | setStreamHandler
  -- `go node.echoMessages()`.
  | spawnEchoMessages
  -- `log.Errorf("error getting repo profile: %s\n", ...)`.
  | logError (e : String)
  deriving DecidableEq, Repr

/-- How a Go function with an `error` result ends: `nil`, an error, or a
run-time fault (a method call on a nil interface value). -/
inductive GoResult where
  | ok
  | err (e : String)
  | fault
  deriving DecidableEq, Repr

/-- The part of `host.Host` the node uses. `NewStream` may succeed with a
stream or fail with an error text, and may change the world. -/
structure Host (W : Type) where
  ID : PeerID
  Addrs : List String
  NewStream : PeerID → W → Except String Nat × W
  Conns : W → List PeerID

/-- `HandlerFunc`: a handler gets the wrapped stream and the message and
answers whether to hang up. Its effects (replies it sends, stores it
updates) are changes of the world. -/
abbrev HandlerFunc (W : Type) := Nat → Message → W → Bool × W

/-- The fields of `QriNode` the modelled functions read. `Host = none` is the
nil interface, `handlers` is the Go map as an association list. -/
structure QriNode (W : Type) where
  ID : PeerID
  Online : Bool
  Host : Option (Host W)
  Discovery : Option Nat
  BootstrapAddrs : List String
  handlers : List (MsgType × HandlerFunc W)
  receivers : List Nat
  profileReplication : String

/-- Result of `SendMessage`: what it did, how it ended, the world after. -/
structure SendOut (W : Type) where
  events : List Event
  result : GoResult
  world : W

/-- The `for _, peerID := range pids` loop of `SendMessage`. `defers` is the
stack of deferred `s.Close()` calls, latest first. `wsSend` is
`WrappedStream.sendMessage`, declared outside node.go. -/
def SendMessage.loop {W : Type} (n : QriNode W) (wsSend : Nat → Message → W → Option String × W)
    (msg : Message) (replies : Option Nat) :
    List PeerID → List Nat → W → List Event × List Nat × GoResult × W
  | [], defers, w => ([], defers, GoResult.ok, w)
  | peerID :: rest, defers, w =>
    if peerID = n.ID then
      -- can't send messages to yourself, silly
      SendMessage.loop n wsSend msg replies rest defers w
    else
      match n.Host with
      | none => ([Event.newStream peerID], defers, GoResult.fault, w)
      | some h =>
        match h.NewStream peerID w with
        | (Except.error e, w1) =>
          ([Event.newStream peerID], defers, GoResult.err ("error opening stream: " ++ e), w1)
        | (Except.ok s, w1) =>
          match wsSend s msg w1 with
          | (some e, w2) =>
            ([Event.newStream peerID, Event.spawnHandleStream s replies, Event.sendMessage s msg],
              s :: defers, GoResult.err e, w2)
          | (none, w2) =>
            let r := SendMessage.loop n wsSend msg replies rest (s :: defers) w2
            ([Event.newStream peerID, Event.spawnHandleStream s replies, Event.sendMessage s msg]
              ++ r.1, r.2.1, r.2.2.1, r.2.2.2)

/-- `SendMessage`: the loop, then the deferred closes, last deferred first.
Deferred calls run on every exit, a fault included. -/
def SendMessage {W : Type} (n : QriNode W) (wsSend : Nat → Message → W → Option String × W)
    (msg : Message) (replies : Option Nat) (pids : List PeerID) (w : W) : SendOut W :=
  let r := SendMessage.loop n wsSend msg replies pids [] w
  { events := r.1 ++ r.2.1.map Event.close, result := r.2.2.1, world := r.2.2.2 }

/-- The destinations of the `NewStream` calls in a trace, in order. -/
def attempts (es : List Event) : List PeerID :=
  es.filterMap fun e => match e with
    | Event.newStream pid => some pid
    | _ => none

/-- The streams closed in a trace, in order. -/
def closes (es : List Event) : List Nat :=
  es.filterMap fun e => match e with
    | Event.close s => some s
    | _ => none

/-- The streams handed to a receive loop by `go n.handleStream`, in order. -/
def spawned (es : List Event) : List Nat :=
  es.filterMap fun e => match e with
    | Event.spawnHandleStream s _ => some s
    | _ => none

/-- The messages for which a handler was invoked, in order. -/
def handled (es : List Event) : List Message :=
  es.filterMap fun e => match e with
    | Event.handle _ m => some m
    | _ => none

/-- The messages posted to the fan-out channel, in order. -/
def fanout (es : List Event) : List Message :=
  es.filterMap fun e => match e with
    | Event.postMsgChan m => some m
    | _ => none

/-- The results of the receive calls of a trace, in order. -/
def receives (es : List Event) : List RecvResult :=
  es.filterMap fun e => match e with
    | Event.receive r => some r
    | _ => none

/-- The calls of `ws.sendMessage` in a trace, as stream and message, in order. -/
def sends (es : List Event) : List (Nat × Message) :=
  es.filterMap fun e => match e with
    | Event.sendMessage s m => some (s, m)
    | _ => none

/-- The test the claim words as "different from the node's own ID". -/
def notSelf (id : PeerID) (p : PeerID) : Bool := decide (p ≠ id)

/-- Walking a destination list as the claim words it: every destination is
tried in order, and the walk stops with the first one whose stream cannot
be opened or whose send fails (that one included). -/
def upToFirstFailure {W : Type} (host : Option (Host W))
    (wsSend : Nat → Message → W → Option String × W) (msg : Message) :
    List PeerID → W → List PeerID
  | [], _ => []
  | p :: ps, w =>
    match host with
    | none => [p]
    | some h =>
      match h.NewStream p w with
      | (Except.error _, _) => [p]
      | (Except.ok s, w1) =>
        match wsSend s msg w1 with
        | (some _, _) => [p]
        | (none, w2) => p :: upToFirstFailure host wsSend msg ps w2

/-- How a receive loop stands when the scripted receive results are used up:
it has returned, or it is still waiting inside `ws.receiveMessage()`. -/
inductive LoopStatus where
  | returned
  | blocked
  deriving DecidableEq, Repr

/-- Result of `handleStream`: what it did, the receive results it never
asked for, how it stands, the world after. -/
structure StreamOut (W : Type) where
  events : List Event
  unread : List RecvResult
  status : LoopStatus
  world : W

/-- The events of receiving one message and posting it, before the lookup:
the receive, `go func() { replies <- msg }()` when there is a reply channel,
and `go func() { n.msgChan <- msg }()`. -/
def postsOf (replies : Option Nat) (m : Message) : List Event :=
  [Event.receive (RecvResult.msg m)]
    ++ (match replies with
        | some c => [Event.postReplies c m]
        | none => [])
    ++ [Event.postMsgChan m]

/-- `handleStream`: the receive loop, run against the finite sequence of
results that the calls of `ws.receiveMessage()` give on this stream. Handlers
answer `hangup`; their own traffic on the stream is part of the world. -/
def handleStream {W : Type} (n : QriNode W) (ws : Nat) (replies : Option Nat) :
    List RecvResult → W → StreamOut W
  | [], w => { events := [], unread := [], status := LoopStatus.blocked, world := w }
  | RecvResult.error e :: rest, w =>
    if e = "EOF" then
      { events := [Event.receive (RecvResult.error e)], unread := rest,
        status := LoopStatus.returned, world := w }
    else
      { events := [Event.receive (RecvResult.error e), Event.logDebug e], unread := rest,
        status := LoopStatus.returned, world := w }
  | RecvResult.msg m :: rest, w =>
    match n.handlers.lookup m.Typ with
    | none =>
      { events := postsOf replies m ++ [Event.logInfo m.Typ], unread := rest,
        status := LoopStatus.returned, world := w }
    | some handler =>
      let r := handler ws m w
      if r.1 then
        { events := postsOf replies m ++ [Event.handle m.Typ m], unread := rest,
          status := LoopStatus.returned, world := r.2 }
      else
        let out := handleStream n ws replies rest r.2
        { events := postsOf replies m ++ [Event.handle m.Typ m] ++ out.events,
          unread := out.unread, status := out.status, world := out.world }

/-- `QriStreamHandler`: `defer s.Close()`, then the receive loop without a
reply channel. The deferred close runs when `handleStream` has returned. -/
def QriStreamHandler {W : Type} (n : QriNode W) (s : Nat) (script : List RecvResult) (w : W) :
    StreamOut W :=
  let out := handleStream n s none script w
  match out.status with
  | LoopStatus.returned => { out with events := out.events ++ [Event.close s] }
  | LoopStatus.blocked => out

/-- The six handler methods of the node (`n.handlePing` and the others),
declared outside node.go and taken as they are. -/
structure HandlerImpl (W : Type) where
  handlePing : HandlerFunc W
  handleProfile : HandlerFunc W
  handleProfiles : HandlerFunc W
  handleDataset : HandlerFunc W
  handleDatasetsList : HandlerFunc W
  handleEvents : HandlerFunc W

/-- `MakeHandlers`: the map literal of message types to handler methods. -/
def MakeHandlers {W : Type} (impl : HandlerImpl W) : List (MsgType × HandlerFunc W) :=
  [ (MsgType.MtPing, impl.handlePing),
    (MsgType.MtProfile, impl.handleProfile),
    (MsgType.MtProfiles, impl.handleProfiles),
    (MsgType.MtDatasetInfo, impl.handleDataset),
    (MsgType.MtDatasets, impl.handleDatasetsList),
    (MsgType.MtEvents, impl.handleEvents) ]

/-- Result of `StartOnlineServices`. `events` are the calls made by the
calling goroutine up to its return; `waiter` is the peer name the goroutine
waiting on `bsPeers` calls `bootstrapped` with, when a peer arrives there. -/
structure OnlineOut (W : Type) where
  events : List Event
  waiter : Option String
  result : GoResult
  world : W

/-- The calls of the `bootstrapped` callback in a trace, in order. -/
def callbacks (es : List Event) : List String :=
  es.filterMap fun e => match e with
    | Event.bootstrapped peer => some peer
    | _ => none

/-- `StartOnlineServices`. `StartDiscovery` is declared outside node.go: it
is taken as a function giving its error (if any) and the peers it put on
`bsPeers`. `pretty` is `peer.ID.Pretty`. -/
def StartOnlineServices {W : Type} (n : QriNode W) (pretty : PeerID → String)
    (StartDiscovery : W → Option String × List PeerID × W) (w : W) : OnlineOut W :=
  if !n.Online then
    { events := [], waiter := none, result := GoResult.ok, world := w }
  else
    let r := StartDiscovery w
    { events := [Event.spawnBootstrapWaiter, Event.startDiscovery, Event.bootstrapped ""],
      waiter := r.2.1.head?.map pretty,
      result := (match r.1 with
        | none => GoResult.ok
        | some e => GoResult.err e),
      world := r.2.2 }

/-- The `profile.Profile` record. `Addresses = none` is the nil map; a map
is an association list with one entry per key. -/
structure Profile where
  ID : String
  Created : Nat
  Updated : Nat
  Peername : String
  Typ : Nat
  Email : String
  Name : String
  Description : String
  HomeURL : String
  Color : String
  Thumb : String
  Photo : String
  Poster : String
  Twitter : String
  Addresses : Option (List (String × List String))
  deriving DecidableEq, Repr

/-- Go map assignment `m[k] = v` on an association list. -/
def mapSet {α β : Type} [DecidableEq α] (k : α) (v : β) : List (α × β) → List (α × β)
  | [] => [(k, v)]
  | (k1, v1) :: rest => if k1 = k then (k, v) :: rest else (k1, v1) :: mapSet k v rest

/-- `ConnectedQriProfiles`. `PeerProfile` is `n.Repo.Profiles().PeerProfile`,
declared outside node.go. -/
def ConnectedQriProfiles {W : Type} (n : QriNode W)
    (PeerProfile : PeerID → W → Except String Profile) (w : W) : List (String × Profile) :=
  match n.Host with
  | none => []
  | some h =>
    (h.Conns w).foldl (fun peers id =>
      match PeerProfile id w with
      | Except.ok p => mapSet p.ID p peers
      | Except.error _ => peers) []

/-- The configuration `config.P2P` once the options have run, as far as
`NewQriNode` and `makeBasicHost` read it. `DecodePeerID` and
`DecodePrivateKey` are methods declared outside node.go; what they return is
a field here. -/
structure P2PConfig where
  Enabled : Bool
  DecodePeerID : Except String PeerID
  DecodePrivateKey : Except String Nat
  QriBootstrapAddrs : List String
  ProfileReplication : String
  Addrs : List String

/-- What `r.Store()` is: an ipfs filestore, with the `PeerHost` and
`Discovery` of its node (either may be nil), or some other store. -/
inductive Store (W : Type) where
  | ipfs (PeerHost : Option (Host W)) (Discovery : Option Nat)
  | other

/-- The part of `repo.Repo` that `NewQriNode` uses. -/
structure Repo (W : Type) where
  Store : Qri.Store W
  Profile : W → Except String Qri.Profile
  SetProfile : Qri.Profile → W → Option String × W

/-- `makeBasicHost`: decode the private key, decode the peer id, build the
swarm and the basic host on it. `newSwarm` is `swarm.NewSwarmWithProtector`
followed by `bhost.New`. -/
def makeBasicHost {W : Type} (cfg : P2PConfig)
    (newSwarm : P2PConfig → PeerID → W → Except String (Host W)) (w : W) :
    Except String (Host W) :=
  match cfg.DecodePrivateKey with
  | Except.error e => Except.error e
  | Except.ok _ =>
    match cfg.DecodePeerID with
    | Except.error e => Except.error e
    | Except.ok pid => newSwarm cfg pid w

/-- `EncapsulatedAddresses` on a node with host `h`: nil when the host
multiaddress cannot be built, else every host address with the host
multiaddress appended. `NewMultiaddr` is `ma.NewMultiaddr`. -/
def EncapsulatedAddresses {W : Type} (h : Host W) (pretty : PeerID → String)
    (NewMultiaddr : String → Except String String) : List String :=
  match NewMultiaddr ("/ipfs/" ++ pretty h.ID) with
  | Except.error _ => []
  | Except.ok hostAddr => h.Addrs.map (fun a => a ++ hostAddr)

/-- `ListenAddresses`: the encapsulated addresses as strings; its error is
always nil. -/
def ListenAddresses {W : Type} (h : Host W) (pretty : PeerID → String)
    (NewMultiaddr : String → Except String String) : List String :=
  EncapsulatedAddresses h pretty NewMultiaddr

/-- Result of `NewQriNode`: the node and error it returns (on a fault it
returns nothing), what it did, the world after. -/
structure NewOut (W : Type) where
  node : Option (QriNode W)
  result : GoResult
  events : List Event
  world : W

/-- The loop `for _, opt := range options { opt(cfg) }` on the default
configuration. -/
def applyOptions (defaultCfg : P2PConfig) (options : List (P2PConfig → P2PConfig)) : P2PConfig :=
  options.foldl (fun c opt => opt c) defaultCfg

/-- `NewQriNode`. `defaultCfg` is `config.DefaultP2P()`, `impl` the handler
methods of the node under construction. -/
def NewQriNode {W : Type} (r : Repo W) (defaultCfg : P2PConfig)
    (options : List (P2PConfig → P2PConfig)) (impl : HandlerImpl W)
    (pretty : PeerID → String) (NewMultiaddr : String → Except String String)
    (newSwarm : P2PConfig → PeerID → W → Except String (Host W)) (w : W) : NewOut W :=
  let cfg := applyOptions defaultCfg options
  match cfg.DecodePeerID with
  | Except.error e =>
    { node := none, result := GoResult.err ("error decoding peer id: " ++ e), events := [],
      world := w }
  | Except.ok pid =>
    let node : QriNode W :=
      { ID := pid, Online := cfg.Enabled, Host := none, Discovery := none,
        BootstrapAddrs := cfg.QriBootstrapAddrs, handlers := MakeHandlers impl,
        receivers := [], profileReplication := cfg.ProfileReplication }
    if node.Online then
      let hosted : Except String (QriNode W) :=
        match r.Store with
        | Store.ipfs PeerHost Discovery =>
          let node1 :=
            match PeerHost with
            | some h => { node with Host := some h }
            | none => node
          match Discovery with
          | some d => Except.ok { node1 with Discovery := some d }
          | none => Except.ok node1
        | Store.other =>
          match node.Host with
          | none =>
            match makeBasicHost cfg newSwarm w with
            | Except.error e => Except.error e
            | Except.ok h => Except.ok { node with Host := some h }
          | some _ => Except.ok node
      match hosted with
      | Except.error e =>
        { node := none, result := GoResult.err ("error creating host: " ++ e), events := [],
          world := w }
      | Except.ok node =>
        match node.Host with
        | none => { node := none, result := GoResult.fault, events := [], world := w }
        | some h =>
          match r.Profile w with
          | Except.error e =>
            { node := some node, result := GoResult.err e,
              events := [Event.setStreamHandler, Event.logError e], world := w }
          | Except.ok p =>
            let addrs := ListenAddresses h pretty NewMultiaddr
            let p1 : Profile :=
              { p with Addresses := some (mapSet (pretty node.ID) addrs (p.Addresses.getD [])) }
            match r.SetProfile p1 w with
            | (some e, w1) =>
              { node := some node, result := GoResult.err e,
                events := [Event.setStreamHandler], world := w1 }
            | (none, w1) =>
              { node := some node, result := GoResult.ok,
                events := [Event.setStreamHandler, Event.spawnEchoMessages], world := w1 }
    else
      { node := some node, result := GoResult.ok, events := [Event.spawnEchoMessages],
        world := w }

/-- The host a node with networking enabled is given: the `PeerHost` of the
ipfs node when the store is an ipfs filestore (it may be nil), else the host
`makeBasicHost` builds, or its error. -/
def nodeHost {W : Type} (r : Repo W) (cfg : P2PConfig)
    (newSwarm : P2PConfig → PeerID → W → Except String (Host W)) (w : W) :
    Except String (Option (Host W)) :=
  match r.Store with
  | Store.ipfs PeerHost _ => Except.ok PeerHost
  | Store.other =>
    match makeBasicHost cfg newSwarm w with
    | Except.error e => Except.error e
    | Except.ok h => Except.ok (some h)

/-- The profile `NewQriNode` writes back: the profile read, with the listen
addresses of the host entered under the node's own id. -/
def writtenProfile {W : Type} (pretty : PeerID → String)
    (NewMultiaddr : String → Except String String) (pid : PeerID) (h : Host W) (p : Profile) :
    Profile :=
  let addrs := ListenAddresses h pretty NewMultiaddr
  { p with Addresses := some (mapSet (pretty pid) addrs (p.Addresses.getD [])) }

/-- The claim's "opening a stream or sending to this destination fails", with
the result `SendMessage` then has: a nil host faults, an open failure is
wrapped, a send failure is returned as it is. -/
def failsAt {W : Type} (n : QriNode W) (wsSend : Nat → Message → W → Option String × W)
    (msg : Message) (p : PeerID) (w : W) (res : GoResult) : Prop :=
  match n.Host with
  | none => res = GoResult.fault
  | some h =>
    match h.NewStream p w with
    | (Except.error e, _) => res = GoResult.err ("error opening stream: " ++ e)
    | (Except.ok s, w1) =>
      match wsSend s msg w1 with
      | (some e, _) => res = GoResult.err e
      | (none, _) => False

/-! ## Concrete nodes and peers used to evaluate the definitions -/

/-- A host whose world counts the streams opened so far: every peer can be
reached except `"QmDown"`; the stream opened is named by the count. -/
def demoHost : Host Nat where
  ID := "QmSelf"
  Addrs := ["/ip4/127.0.0.1/tcp/4001"]
  NewStream := fun pid w =>
    if pid = "QmDown" then (Except.error "dial backoff", w) else (Except.ok w, w + 1)
  Conns := fun _ => ["QmB"]

/-- A codec whose sends all succeed. -/
def demoSend : Nat → Message → Nat → Option String × Nat := fun _ _ w => (none, w)

/-- A codec whose send fails on stream 1 and succeeds on every other. -/
def flakySend : Nat → Message → Nat → Option String × Nat := fun s _ w =>
  if s = 1 then (some "stream reset", w) else (none, w)

/-- Handlers that never ask to hang up. -/
def demoImpl : HandlerImpl Nat where
  handlePing := fun _ _ w => (false, w)
  handleProfile := fun _ _ w => (false, w)
  handleProfiles := fun _ _ w => (false, w)
  handleDataset := fun _ _ w => (false, w)
  handleDatasetsList := fun _ _ w => (false, w)
  handleEvents := fun _ _ w => (false, w)

/-- An online node `"QmSelf"` on `demoHost`. -/
def demoNode : QriNode Nat where
  ID := "QmSelf"
  Online := true
  Host := some demoHost
  Discovery := none
  BootstrapAddrs := []
  handlers := MakeHandlers demoImpl
  receivers := []
  profileReplication := ""

/-- The node `"QmSelf"` as `NewQriNode` leaves it with `Online = false`: no
host. -/
def offlineNode : QriNode Nat where
  ID := "QmSelf"
  Online := false
  Host := none
  Discovery := none
  BootstrapAddrs := []
  handlers := MakeHandlers demoImpl
  receivers := []
  profileReplication := ""

/-- A ping. -/
def ping : Message := { Typ := MsgType.MtPing, Payload := [], HangUp := false }

/-- A ping whose `HangUp` field is set. -/
def hangupPing : Message := { Typ := MsgType.MtPing, Payload := [], HangUp := true }

/-- A message of a type outside the handler table. -/
def strayMsg : Message := { Typ := MsgType.MtOther 7, Payload := [1], HangUp := false }

/-- A configuration with networking enabled and decodable key material. -/
def demoCfg : P2PConfig where
  Enabled := true
  DecodePeerID := Except.ok "QmSelf"
  DecodePrivateKey := Except.ok 1
  QriBootstrapAddrs := []
  ProfileReplication := ""
  Addrs := []

/-- A repository on a store that is not ipfs, whose profile cannot be read. -/
def brokenRepo : Repo Nat where
  Store := Store.other
  Profile := fun _ => Except.error "profile not found"
  SetProfile := fun _ w => (none, w)

/-- A swarm constructor that succeeds with `demoHost`. -/
def demoSwarm : P2PConfig → PeerID → Nat → Except String (Host Nat) :=
  fun _ _ _ => Except.ok demoHost

/-- A discovery that returns nil and finds no peer. -/
def quietDiscovery : Nat → Option String × List PeerID × Nat := fun w => (none, [], w)

/-- A configuration whose peer id does not decode. -/
def badKeyCfg : P2PConfig where
  Enabled := true
  DecodePeerID := Except.error "invalid base58"
  DecodePrivateKey := Except.ok 1
  QriBootstrapAddrs := []
  ProfileReplication := ""
  Addrs := []

/-- The six message types named by the claim. -/
def sixTypes : List MsgType :=
  [MsgType.MtPing, MsgType.MtProfile, MsgType.MtProfiles, MsgType.MtDatasetInfo,
    MsgType.MtDatasets, MsgType.MtEvents]

/-! ## The fan-out: `ReceiveMessages` and `echoMessages`

`echoMessages` runs on a goroutine of its own (the dispatcher) and starts one
goroutine per subscriber and message. The goroutines run in an order the code
does not fix, so the embedding is a step function driven by a schedule: a list
saying which goroutine takes the next step. -/

/-- `ReceiveMessages`: append the channel to the list of receivers. -/
def ReceiveMessages {W : Type} (n : QriNode W) (r : Nat) : QriNode W :=
  { n with receivers := n.receivers ++ [r] }

/-- Registering the channels `rs`, in order, on the node. -/
def registerAll {W : Type} (n : QriNode W) (rs : List Nat) : QriNode W :=
  rs.foldl ReceiveMessages n

/-- One delivery goroutine `go func() { r <- msg }()`. The closure refers to
the variable `msg` of the iteration of the outer loop that started it and to
the variable `r` of the `for _, r := range n.receivers` statement that started
it; `loopVar` numbers the executions of that statement. The send statement
evaluates its channel operand `r` once: `operand` is `none` until the
goroutine has done so, and from then on the channel it is sending on
(`some none` is the nil channel), whatever `r` becomes later. -/
structure Delivery where
  loopVar : Nat
  msg : Message
  operand : Option (Option Nat)
  deriving DecidableEq, Repr

/-- The state of the fan-out. `ranging` is the position of the dispatcher:
`none` at `msg := <-n.msgChan`, `some (msg, rs)` inside the range loop with
the receivers `rs` still to visit. `loopVars` holds the current value of the
variable `r` of each execution of the range statement. `started` lists every
delivery goroutine started so far, `pending` those whose send has not
completed, `delivered` the completed sends as channel and message. -/
structure EchoState where
  receivers : List Nat
  msgChan : List Message
  ranging : Option (Message × List Nat)
  loopVars : List (Option Nat)
  pending : List Delivery
  started : List Delivery
  delivered : List (Nat × Message)
  deriving DecidableEq, Repr

/-- The subscriber side of the channels: whether somebody keeps receiving
from a channel, and the size of its buffer. -/
structure Subscribers where
  drained : Nat → Bool
  cap : Nat → Nat

/-- A send on channel `c` completes when the channel is being drained or its
buffer has room; otherwise the sender stays blocked. -/
def canSend (sub : Subscribers) (c : Nat) (delivered : List (Nat × Message)) : Bool :=
  sub.drained c || decide ((delivered.filter (fun x => x.1 = c)).length < sub.cap c)

/-- Who takes the next step: the dispatcher `echoMessages`, or the `i`-th of
the pending delivery goroutines. -/
inductive Step where
  | dispatcher
  | deliver (i : Nat)
  deriving DecidableEq, Repr

/-- One step of the fan-out. The dispatcher either takes the next message
from `msgChan` and enters the range loop (or waits, when there is none), or
runs one iteration of the range loop: assign `r`, start the goroutine. A
delivery goroutine first evaluates the channel operand of `r <- msg`, reading
the value its variable `r` holds at that moment; from then on it is parked on
that channel, and a later step completes the send when the channel accepts
and leaves it parked there when not. A send on the nil channel never
completes. -/
def echoStep (sub : Subscribers) : Step → EchoState → EchoState
  | Step.dispatcher, st =>
    match st.ranging with
    | some (m, r :: rs) =>
      let d : Delivery := { loopVar := st.loopVars.length - 1, msg := m, operand := none }
      { st with
        ranging := some (m, rs),
        loopVars := st.loopVars.set (st.loopVars.length - 1) (some r),
        pending := st.pending ++ [d],
        started := st.started ++ [d] }
    | _ =>
      match st.msgChan with
      | [] => { st with ranging := none }
      | m :: q =>
        { st with msgChan := q, ranging := some (m, st.receivers),
                  loopVars := st.loopVars ++ [none] }
  | Step.deliver i, st =>
    match st.pending.get? i with
    | none => st
    | some d =>
      match d.operand with
      | none =>
        { st with pending :=
            st.pending.set i { d with operand := some (st.loopVars.getD d.loopVar none) } }
      | some none => st
      | some (some c) =>
        if canSend sub c st.delivered then
          { st with pending := st.pending.eraseIdx i,
                    delivered := st.delivered ++ [(c, d.msg)] }
        else st

/-- The fan-out under a schedule. -/
def echoRun (sub : Subscribers) (sched : List Step) (st : EchoState) : EchoState :=
  sched.foldl (fun s a => echoStep sub a s) st

/-- The fan-out when `echoMessages` starts waiting, with the given receivers
registered and the given messages arriving on `msgChan` in this order. -/
def echoInit (receivers : List Nat) (msgs : List Message) : EchoState :=
  { receivers := receivers, msgChan := msgs, ranging := none, loopVars := [],
    pending := [], started := [], delivered := [] }

/-- The messages that reached the subscriber channel `c`, in order. -/
def subscriberLog (c : Nat) (st : EchoState) : List Message :=
  (st.delivered.filter (fun x => x.1 = c)).map Prod.snd

/-- What the dispatcher itself has reached: everything of the state but the
progress of the delivery goroutines. -/
def dispatcherView (st : EchoState) :
    List Nat × List Message × Option (Message × List Nat) × List (Option Nat) × List Delivery :=
  (st.receivers, st.msgChan, st.ranging, st.loopVars, st.started)

/-- The goroutines the dispatcher still has to start for the message in hand. -/
def inHand (st : EchoState) : List Message :=
  match st.ranging with
  | some (m, rs) => List.replicate rs.length m
  | none => []

/-- The messages of the goroutines started, in hand and still to come: one per
registered receiver for every message. -/
def owed (st : EchoState) : List Message :=
  st.started.map Delivery.msg ++ inHand st
    ++ st.msgChan.flatMap (fun m => List.replicate st.receivers.length m)

/-- The number of dispatcher steps left until every queued message has been
handed to its goroutines. -/
def work (st : EchoState) : Nat :=
  (inHand st).length + st.msgChan.length * (st.receivers.length + 1)

/-- Subscribers that all keep receiving. -/
def allDrained : Subscribers := { drained := fun _ => true, cap := fun _ => 0 }

/-- Subscribers of which only the one on channel 8 keeps receiving; no
channel has a buffer. -/
def onlyEight : Subscribers := { drained := fun c => decide (c = 8), cap := fun _ => 0 }

/-- A second ping, told from the first by its payload. -/
def ping2 : Message := { Typ := MsgType.MtPing, Payload := [2], HangUp := false }

/-! ## The order of dispatch, and `Profile.PeerIDs` -/

/-- The messages among receive results, in order. -/
def msgsOf (rs : List RecvResult) : List Message :=
  rs.filterMap fun r => match r with
    | RecvResult.msg m => some m
    | RecvResult.error _ => none

/-- The truncation the claim words: the received sequence cut at the first
receive error (left out), at the first message of unregistered type (left
out), or at the first message whose handler answers `hangup = true` (kept),
whichever comes first. What a handler answers depends on the world the
handlers before it left. -/
def truncatedAtStop {W : Type} (n : QriNode W) (ws : Nat) : List RecvResult → W → List Message
  | [], _ => []
  | RecvResult.error _ :: _, _ => []
  | RecvResult.msg m :: rest, w =>
    match n.handlers.lookup m.Typ with
    | none => []
    | some handler =>
      if (handler ws m w).1 then [m] else m :: truncatedAtStop n ws rest (handler ws m w).2

/-- The fan-out posts and handler calls of a trace, in order. -/
def dispatches (es : List Event) : List Event :=
  es.filter fun e => match e with
    | Event.postMsgChan _ => true
    | Event.handle _ _ => true
    | _ => false

/-- The keys of `p.Addresses` in the order a `range` over the map visits
them; the nil map has none. -/
def addressKeys (p : Profile) : List String :=
  match p.Addresses with
  | none => []
  | some m => m.map Prod.fst

/-- `PeerIDs`: range over `p.Addresses`, appending the decoded id of every
key that decodes. The order of the association list stands for the order in
which the range visits the map. `IDB58Decode` is `peer.IDB58Decode`. -/
def PeerIDs (IDB58Decode : String → Except String PeerID) (p : Profile) : List PeerID :=
  match p.Addresses with
  | none => []
  | some m =>
    m.foldl (fun ids kv =>
      match IDB58Decode kv.1 with
      | Except.ok id => ids ++ [id]
      | Except.error _ => ids) []

/-- The id a key decodes to, if it decodes. -/
def decoded (IDB58Decode : String → Except String PeerID) (k : String) : Option PeerID :=
  match IDB58Decode k with
  | Except.ok id => some id
  | Except.error _ => none

/-- A decoder that accepts the keys `"QmA"` and `"QmB"` and no other. -/
def demoDecode : String → Except String PeerID := fun k =>
  if k = "QmA" ∨ k = "QmB" then Except.ok k else Except.error "invalid base58"

/-- A profile with the given addresses and nothing else filled in. -/
def profileWith (addresses : Option (List (String × List String))) : Profile where
  ID := ""
  Created := 0
  Updated := 0
  Peername := ""
  Typ := 0
  Email := ""
  Name := ""
  Description := ""
  HomeURL := ""
  Color := ""
  Thumb := ""
  Photo := ""
  Poster := ""
  Twitter := ""
  Addresses := addresses

/-- A repository on a store that is not ipfs, whose profile can be read and
cannot be written. -/
def readOnlyRepo : Repo Nat where
  Store := Store.other
  Profile := fun _ => Except.ok (profileWith none)
  SetProfile := fun _ w => (some "repo is read-only", w)

/-! ## Theorems -/

theorem attempts_append (a b : List Event) : attempts (a ++ b) = attempts a ++ attempts b := by
  simp [attempts]

theorem closes_append (a b : List Event) : closes (a ++ b) = closes a ++ closes b := by
  simp [closes]

theorem spawned_append (a b : List Event) : spawned (a ++ b) = spawned a ++ spawned b := by
  simp [spawned]

theorem attempts_map_close (d : List Nat) : attempts (d.map Event.close) = [] := by
  induction d with
  | nil => rfl
  | cons s d ih => simp [attempts]

theorem closes_map_close (d : List Nat) : closes (d.map Event.close) = d := by
  induction d with
  | nil => rfl
  | cons s d ih => simpa [closes] using ih

theorem spawned_map_close (d : List Nat) : spawned (d.map Event.close) = [] := by
  induction d with
  | nil => rfl
  | cons s d ih => simp [spawned]

/-- The loop calls `NewStream` for the non-self destinations, in order, up to
the first failure. -/
theorem loop_attempts {W : Type} (n : QriNode W) (wsSend : Nat → Message → W → Option String × W)
    (msg : Message) (replies : Option Nat) (pids : List PeerID) (d : List Nat) (w : W) :
    attempts (SendMessage.loop n wsSend msg replies pids d w).1
      = upToFirstFailure n.Host wsSend msg (pids.filter (notSelf n.ID)) w := by
  induction pids generalizing d w with
  | nil => simp [SendMessage.loop, upToFirstFailure, attempts]
  | cons p ps ih =>
    unfold SendMessage.loop
    by_cases hp : p = n.ID
    · rw [List.filter_cons_of_neg (by simp [notSelf, hp])]
      simp [hp, ih]
    · rw [List.filter_cons_of_pos (by simp [notSelf, hp])]
      simp only [hp, if_false]
      unfold upToFirstFailure
      cases hH : n.Host with
      | none => simp [attempts]
      | some h =>
        simp only
        rcases hN : h.NewStream p w with ⟨r, w1⟩
        cases r with
        | error e => simp [attempts]
        | ok s =>
          simp only
          rcases hS : wsSend s msg w1 with ⟨o, w2⟩
          cases o with
          | some e => simp [attempts]
          | none =>
            have := ih (s :: d) w2
            simp only [hH] at this
            simpa [attempts] using this

/-- Self-addressed entries do not change what the loop does. -/
theorem loop_filter_self {W : Type} (n : QriNode W)
    (wsSend : Nat → Message → W → Option String × W)
    (msg : Message) (replies : Option Nat) (pids : List PeerID) (d : List Nat) (w : W) :
    SendMessage.loop n wsSend msg replies (pids.filter (notSelf n.ID)) d w
      = SendMessage.loop n wsSend msg replies pids d w := by
  induction pids generalizing d w with
  | nil => rfl
  | cons p ps ih =>
    by_cases hp : p = n.ID
    · rw [List.filter_cons_of_neg (by simp [notSelf, hp])]
      conv_rhs => unfold SendMessage.loop
      simp [hp, ih]
    · rw [List.filter_cons_of_pos (by simp [notSelf, hp])]
      unfold SendMessage.loop
      simp only [hp, if_false]
      cases n.Host with
      | none => rfl
      | some h =>
        simp only
        rcases h.NewStream p w with ⟨r, w1⟩
        cases r with
        | error e => rfl
        | ok s =>
          simp only
          rcases wsSend s msg w1 with ⟨o, w2⟩
          cases o with
          | some e => rfl
          | none => simp only [ih]

/-- The walk of the claim visits an initial segment of the list, and the
whole list when the loop ends without error. -/
theorem loop_attempts_segment {W : Type} (n : QriNode W)
    (wsSend : Nat → Message → W → Option String × W)
    (msg : Message) (replies : Option Nat) (pids : List PeerID) (d : List Nat) (w : W) :
    ∃ later, pids.filter (notSelf n.ID)
        = attempts (SendMessage.loop n wsSend msg replies pids d w).1 ++ later
      ∧ ((SendMessage.loop n wsSend msg replies pids d w).2.2.1 = GoResult.ok → later = [])
      ∧ ((SendMessage.loop n wsSend msg replies pids d w).2.2.1 ≠ GoResult.ok →
          attempts (SendMessage.loop n wsSend msg replies pids d w).1 ≠ []) := by
  induction pids generalizing d w with
  | nil => exact ⟨[], by simp [SendMessage.loop, attempts]⟩
  | cons p ps ih =>
    unfold SendMessage.loop
    by_cases hp : p = n.ID
    · rw [List.filter_cons_of_neg (by simp [notSelf, hp])]
      simpa [hp] using ih d w
    · rw [List.filter_cons_of_pos (by simp [notSelf, hp])]
      simp only [hp, if_false]
      cases n.Host with
      | none => exact ⟨ps.filter (notSelf n.ID), by simp [attempts]⟩
      | some h =>
        simp only
        rcases h.NewStream p w with ⟨r, w1⟩
        cases r with
        | error e => exact ⟨ps.filter (notSelf n.ID), by simp [attempts]⟩
        | ok s =>
          simp only
          rcases wsSend s msg w1 with ⟨o, w2⟩
          cases o with
          | some e => exact ⟨ps.filter (notSelf n.ID), by simp [attempts]⟩
          | none =>
            obtain ⟨later, h1, h2, _⟩ := ih (s :: d) w2
            refine ⟨later, ?_, ?_, ?_⟩
            · simp only [attempts_append]
              rw [List.append_assoc, ← h1]
              simp [attempts]
            · simpa using h2
            · simp [attempts]

/-- Every destination the walk visits is in the list walked. -/
theorem mem_of_mem_upToFirstFailure {W : Type} (host : Option (Host W))
    (wsSend : Nat → Message → W → Option String × W) (msg : Message)
    (l : List PeerID) (w : W) (q : PeerID) :
    q ∈ upToFirstFailure host wsSend msg l w → q ∈ l := by
  induction l generalizing w with
  | nil => simp [upToFirstFailure]
  | cons p ps ih =>
    unfold upToFirstFailure
    cases host with
    | none => simp +contextual
    | some h =>
      simp only
      rcases h.NewStream p w with ⟨r, w1⟩
      cases r with
      | error e => simp +contextual
      | ok s =>
        simp only
        rcases wsSend s msg w1 with ⟨o, w2⟩
        cases o with
        | some e => simp +contextual
        | none =>
          simp only [List.mem_cons]
          rintro (h1 | h1)
          · exact Or.inl h1
          · exact Or.inr (ih w2 h1)

/-- With only self-addressed entries the loop does nothing. -/
theorem loop_all_self {W : Type} (n : QriNode W)
    (wsSend : Nat → Message → W → Option String × W)
    (msg : Message) (replies : Option Nat) (pids : List PeerID) (d : List Nat) (w : W)
    (h : ∀ p ∈ pids, p = n.ID) :
    SendMessage.loop n wsSend msg replies pids d w = ([], d, GoResult.ok, w) := by
  induction pids with
  | nil => rfl
  | cons p ps ih =>
    unfold SendMessage.loop
    have hp : p = n.ID := h p (by simp)
    simp only [hp, if_true]
    exact ih (fun q hq => h q (by simp [hq]))

/-- C1: for every node and destination list, `SendMessage` never calls
`NewStream` for the node's own ID; the destinations it calls `NewStream` for
are exactly the entries different from the node's ID, in list order, up to
the first failure (all of them when it returns nil); self-addressed entries
change nothing of what it does or returns; and when every entry is the
node's own ID (the empty list included) it does nothing and returns nil. -/
theorem C1_sendMessage_skips_self {W : Type} (n : QriNode W)
    (wsSend : Nat → Message → W → Option String × W)
    (msg : Message) (replies : Option Nat) (pids : List PeerID) (w : W) :
    n.ID ∉ attempts (SendMessage n wsSend msg replies pids w).events
    ∧ attempts (SendMessage n wsSend msg replies pids w).events
        = upToFirstFailure n.Host wsSend msg (pids.filter (notSelf n.ID)) w
    ∧ (∃ later, pids.filter (notSelf n.ID)
          = attempts (SendMessage n wsSend msg replies pids w).events ++ later
        ∧ ((SendMessage n wsSend msg replies pids w).result = GoResult.ok → later = []))
    ∧ SendMessage n wsSend msg replies (pids.filter (notSelf n.ID)) w
        = SendMessage n wsSend msg replies pids w
    ∧ ((∀ p ∈ pids, p = n.ID) →
        (SendMessage n wsSend msg replies pids w).events = []
        ∧ (SendMessage n wsSend msg replies pids w).result = GoResult.ok) := by
  have hatt : attempts (SendMessage n wsSend msg replies pids w).events
      = upToFirstFailure n.Host wsSend msg (pids.filter (notSelf n.ID)) w := by
    simp only [SendMessage, attempts_append, attempts_map_close, List.append_nil]
    exact loop_attempts n wsSend msg replies pids [] w
  refine ⟨?_, hatt, ?_, ?_, ?_⟩
  · intro hmem
    rw [hatt] at hmem
    have := mem_of_mem_upToFirstFailure _ _ _ _ _ _ hmem
    simp [notSelf] at this
  · obtain ⟨later, h1, h2, _⟩ := loop_attempts_segment n wsSend msg replies pids [] w
    refine ⟨later, ?_, ?_⟩
    · simpa only [SendMessage, attempts_append, attempts_map_close, List.append_nil] using h1
    · simpa only [SendMessage] using h2
  · simp only [SendMessage, loop_filter_self]
  · intro h
    simp [SendMessage, loop_all_self n wsSend msg replies pids [] w h]

/-- C1 at a concrete input: a destination list of self-addressed entries only. -/
theorem C1_sendMessage_skips_self_witness :
    (SendMessage demoNode demoSend ping none ["QmSelf", "QmSelf"] 0).events = []
    ∧ (SendMessage demoNode demoSend ping none ["QmSelf", "QmSelf"] 0).result = GoResult.ok :=
  (C1_sendMessage_skips_self demoNode demoSend ping none ["QmSelf", "QmSelf"] 0).2.2.2.2
    (by decide)

theorem handled_append (a b : List Event) : handled (a ++ b) = handled a ++ handled b := by
  simp [handled]

theorem fanout_append (a b : List Event) : fanout (a ++ b) = fanout a ++ fanout b := by
  simp [fanout]

theorem receives_append (a b : List Event) : receives (a ++ b) = receives a ++ receives b := by
  simp [receives]

theorem handled_postsOf (replies : Option Nat) (m : Message) : handled (postsOf replies m) = [] := by
  cases replies <;> simp [postsOf, handled]

theorem fanout_postsOf (replies : Option Nat) (m : Message) : fanout (postsOf replies m) = [m] := by
  cases replies <;> simp [postsOf, fanout]

theorem receives_postsOf (replies : Option Nat) (m : Message) :
    receives (postsOf replies m) = [RecvResult.msg m] := by
  cases replies <;> simp [postsOf, receives]

theorem closes_postsOf (replies : Option Nat) (m : Message) : closes (postsOf replies m) = [] := by
  cases replies <;> simp [postsOf, closes]

/-- The receive loop on an error result: it returns. -/
theorem handleStream_error {W : Type} (n : QriNode W) (ws : Nat) (replies : Option Nat)
    (e : String) (rest : List RecvResult) (w : W) :
    (handleStream n ws replies (RecvResult.error e :: rest) w).status = LoopStatus.returned
    ∧ (handleStream n ws replies (RecvResult.error e :: rest) w).unread = rest
    ∧ (handleStream n ws replies (RecvResult.error e :: rest) w).world = w
    ∧ (handleStream n ws replies (RecvResult.error e :: rest) w).events
        = Event.receive (RecvResult.error e) :: (if e = "EOF" then [] else [Event.logDebug e]) := by
  unfold handleStream
  by_cases he : e = "EOF" <;> simp [he]

/-- The receive loop on one message of unregistered type. -/
theorem handleStream_unknown {W : Type} (n : QriNode W) (ws : Nat) (replies : Option Nat)
    (m : Message) (rest : List RecvResult) (w : W) (hm : n.handlers.lookup m.Typ = none) :
    handleStream n ws replies (RecvResult.msg m :: rest) w
      = { events := postsOf replies m ++ [Event.logInfo m.Typ], unread := rest,
          status := LoopStatus.returned, world := w } := by
  rw [handleStream]
  simp [hm]

/-- The receive loop on one message whose handler asks to hang up. -/
theorem handleStream_hangup {W : Type} (n : QriNode W) (ws : Nat) (replies : Option Nat)
    (m : Message) (rest : List RecvResult) (w : W) (handler : HandlerFunc W)
    (hl : n.handlers.lookup m.Typ = some handler) (hh : (handler ws m w).1 = true) :
    handleStream n ws replies (RecvResult.msg m :: rest) w
      = { events := postsOf replies m ++ [Event.handle m.Typ m], unread := rest,
          status := LoopStatus.returned, world := (handler ws m w).2 } := by
  rw [handleStream]
  simp [hl, hh]

/-- The receive loop on one message whose handler does not ask to hang up. -/
theorem handleStream_continue {W : Type} (n : QriNode W) (ws : Nat) (replies : Option Nat)
    (m : Message) (rest : List RecvResult) (w : W) (handler : HandlerFunc W)
    (hl : n.handlers.lookup m.Typ = some handler) (hh : (handler ws m w).1 = false) :
    handleStream n ws replies (RecvResult.msg m :: rest) w
      = { events := postsOf replies m ++ [Event.handle m.Typ m]
            ++ (handleStream n ws replies rest (handler ws m w).2).events,
          unread := (handleStream n ws replies rest (handler ws m w).2).unread,
          status := (handleStream n ws replies rest (handler ws m w).2).status,
          world := (handleStream n ws replies rest (handler ws m w).2).world } := by
  rw [handleStream]
  simp [hl, hh]

/-- A loop that has used up a script and is still waiting goes on with the
results that follow as if started on them. -/
theorem handleStream_append {W : Type} (n : QriNode W) (ws : Nat) (replies : Option Nat)
    (pre post : List RecvResult) (w : W)
    (h : (handleStream n ws replies pre w).status = LoopStatus.blocked) :
    handleStream n ws replies (pre ++ post) w
      = { events := (handleStream n ws replies pre w).events
            ++ (handleStream n ws replies post (handleStream n ws replies pre w).world).events,
          unread := (handleStream n ws replies post (handleStream n ws replies pre w).world).unread,
          status := (handleStream n ws replies post (handleStream n ws replies pre w).world).status,
          world := (handleStream n ws replies post (handleStream n ws replies pre w).world).world } := by
  induction pre generalizing w with
  | nil => simp [handleStream]
  | cons r pre ih =>
    cases r with
    | error e =>
      rw [(handleStream_error n ws replies e pre w).1] at h
      cases h
    | msg m =>
      simp only [List.cons_append]
      cases hl : n.handlers.lookup m.Typ with
      | none =>
        rw [handleStream_unknown n ws replies m pre w hl] at h
        cases h
      | some handler =>
        cases hh : (handler ws m w).1 with
        | true =>
          rw [handleStream_hangup n ws replies m pre w handler hl hh] at h
          cases h
        | false =>
          rw [handleStream_continue n ws replies m pre w handler hl hh] at h
          rw [handleStream_continue n ws replies m _ w handler hl hh,
            handleStream_continue n ws replies m pre w handler hl hh]
          simp only at h ⊢
          rw [ih _ h]
          simp [List.append_assoc]

/-- Handlers are only invoked under a type that is in the table. -/
theorem handleStream_handle_registered {W : Type} (n : QriNode W) (ws : Nat)
    (replies : Option Nat) (script : List RecvResult) (w : W) (t : MsgType) (m : Message)
    (h : Event.handle t m ∈ (handleStream n ws replies script w).events) :
    n.handlers.lookup t ≠ none := by
  have hposts : ∀ m1, Event.handle t m ∉ postsOf replies m1 := by
    intro m1
    cases replies <;> simp [postsOf]
  induction script generalizing w with
  | nil => simp [handleStream] at h
  | cons r script ih =>
    cases r with
    | error e =>
      rw [(handleStream_error n ws replies e script w).2.2.2] at h
      by_cases he : e = "EOF" <;> simp [he] at h
    | msg m1 =>
      cases hl : n.handlers.lookup m1.Typ with
      | none =>
        rw [handleStream_unknown n ws replies m1 script w hl] at h
        simp [hposts m1] at h
      | some handler =>
        cases hh : (handler ws m1 w).1 with
        | true =>
          rw [handleStream_hangup n ws replies m1 script w handler hl hh] at h
          simp [hposts m1] at h
          rw [h.1, hl]
          simp
        | false =>
          rw [handleStream_continue n ws replies m1 script w handler hl hh] at h
          simp only [List.mem_append, hposts m1, false_or, List.mem_singleton] at h
          rcases h with h | h
          · injection h with h1 h2
            rw [h1, hl]
            simp
          · exact ih _ h

/-- C2: when the receive loop, having handled the messages before it, receives
a message whose type has no entry in the handler table, it posts the message
to the fan-out channel (and to the reply channel, if there is one), invokes no
handler for it, and returns without receiving anything further from the
stream: the results after it stay unread. -/
theorem C2_unknown_type_hangs_up {W : Type} (n : QriNode W) (ws : Nat) (replies : Option Nat)
    (pre : List RecvResult) (m : Message) (rest : List RecvResult) (w : W)
    (hpre : (handleStream n ws replies pre w).status = LoopStatus.blocked)
    (hm : n.handlers.lookup m.Typ = none) :
    (handleStream n ws replies (pre ++ RecvResult.msg m :: rest) w).status = LoopStatus.returned
    ∧ (handleStream n ws replies (pre ++ RecvResult.msg m :: rest) w).unread = rest
    ∧ (handleStream n ws replies (pre ++ RecvResult.msg m :: rest) w).events
        = (handleStream n ws replies pre w).events
            ++ (postsOf replies m ++ [Event.logInfo m.Typ])
    ∧ handled (handleStream n ws replies (pre ++ RecvResult.msg m :: rest) w).events
        = handled (handleStream n ws replies pre w).events
    ∧ (∀ m1, Event.handle m.Typ m1
        ∉ (handleStream n ws replies (pre ++ RecvResult.msg m :: rest) w).events)
    ∧ fanout (handleStream n ws replies (pre ++ RecvResult.msg m :: rest) w).events
        = fanout (handleStream n ws replies pre w).events ++ [m]
    ∧ receives (handleStream n ws replies (pre ++ RecvResult.msg m :: rest) w).events
        = receives (handleStream n ws replies pre w).events ++ [RecvResult.msg m] := by
  have hev : (handleStream n ws replies (pre ++ RecvResult.msg m :: rest) w).events
      = (handleStream n ws replies pre w).events
          ++ (postsOf replies m ++ [Event.logInfo m.Typ]) := by
    rw [handleStream_append n ws replies pre _ w hpre, handleStream_unknown n ws replies m rest _ hm]
  refine ⟨?_, ?_, hev, ?_, ?_, ?_, ?_⟩
  · rw [handleStream_append n ws replies pre _ w hpre, handleStream_unknown n ws replies m rest _ hm]
  · rw [handleStream_append n ws replies pre _ w hpre, handleStream_unknown n ws replies m rest _ hm]
  · rw [hev, handled_append, handled_append, handled_postsOf]
    simp [handled]
  · intro m1 hmem
    exact handleStream_handle_registered n ws replies _ w m.Typ m1 hmem hm
  · rw [hev, fanout_append, fanout_append, fanout_postsOf]
    simp [fanout]
  · rw [hev, receives_append, receives_append, receives_postsOf]
    simp [receives]

/-- C2 at a concrete input: a ping, then a message of unregistered type, then
another ping that is never received. -/
theorem C2_unknown_type_hangs_up_witness :
    (handleStream demoNode 3 none
        ([RecvResult.msg ping] ++ RecvResult.msg strayMsg :: [RecvResult.msg ping]) 0).unread
      = [RecvResult.msg ping]
    ∧ fanout (handleStream demoNode 3 none
        ([RecvResult.msg ping] ++ RecvResult.msg strayMsg :: [RecvResult.msg ping]) 0).events
      = fanout (handleStream demoNode 3 none [RecvResult.msg ping] 0).events ++ [strayMsg] :=
  have h := C2_unknown_type_hangs_up demoNode 3 none [RecvResult.msg ping] strayMsg
    [RecvResult.msg ping] 0 (by decide) (by rfl)
  ⟨h.2.1, h.2.2.2.2.2.1⟩

/-- When the loop ends in failure, the non-self destinations split into those
delivered before (on which the loop alone ends without error), the one that
failed, and those after, and the calls of `NewStream` stop with the one that
failed. -/
theorem loop_stops_at_failure {W : Type} (n : QriNode W)
    (wsSend : Nat → Message → W → Option String × W)
    (msg : Message) (replies : Option Nat) (pids : List PeerID) (d : List Nat) (w : W)
    (h : (SendMessage.loop n wsSend msg replies pids d w).2.2.1 ≠ GoResult.ok) :
    ∃ before p later, pids.filter (notSelf n.ID) = before ++ p :: later
      ∧ (SendMessage.loop n wsSend msg replies before d w).2.2.1 = GoResult.ok
      ∧ failsAt n wsSend msg p (SendMessage.loop n wsSend msg replies before d w).2.2.2
          (SendMessage.loop n wsSend msg replies pids d w).2.2.1
      ∧ attempts (SendMessage.loop n wsSend msg replies pids d w).1 = before ++ [p] := by
  induction pids generalizing d w with
  | nil => simp [SendMessage.loop] at h
  | cons p ps ih =>
    by_cases hp : p = n.ID
    · rw [List.filter_cons_of_neg (by simp [notSelf, hp])]
      have e : SendMessage.loop n wsSend msg replies (p :: ps) d w
          = SendMessage.loop n wsSend msg replies ps d w := by
        rw [SendMessage.loop]
        simp [hp]
      rw [e] at h ⊢
      exact ih d w h
    · rw [List.filter_cons_of_pos (by simp [notSelf, hp])]
      rw [SendMessage.loop] at h ⊢
      simp only [hp, if_false] at h ⊢
      cases hH : n.Host with
      | none =>
        refine ⟨[], p, ps.filter (notSelf n.ID), rfl, rfl, ?_, ?_⟩
        · simp [failsAt, hH, SendMessage.loop]
        · simp [attempts]
      | some hst =>
        simp only [hH] at h
        simp only
        rcases hN : hst.NewStream p w with ⟨r, w1⟩
        simp only [hN] at h
        cases r with
        | error e =>
          refine ⟨[], p, ps.filter (notSelf n.ID), rfl, rfl, ?_, ?_⟩
          · simp [failsAt, hH, SendMessage.loop, hN]
          · simp [attempts]
        | ok st =>
          simp only at h ⊢
          rcases hS : wsSend st msg w1 with ⟨o, w2⟩
          simp only [hS] at h
          cases o with
          | some e =>
            refine ⟨[], p, ps.filter (notSelf n.ID), rfl, rfl, ?_, ?_⟩
            · simp [failsAt, hH, SendMessage.loop, hN, hS]
            · simp [attempts]
          | none =>
            simp only at h ⊢
            obtain ⟨before, q, later, h1, h2, h3, h4⟩ := ih (st :: d) w2 h
            have e : SendMessage.loop n wsSend msg replies (p :: before) d w
                = ([Event.newStream p, Event.spawnHandleStream st replies,
                      Event.sendMessage st msg]
                    ++ (SendMessage.loop n wsSend msg replies before (st :: d) w2).1,
                  (SendMessage.loop n wsSend msg replies before (st :: d) w2).2.1,
                  (SendMessage.loop n wsSend msg replies before (st :: d) w2).2.2.1,
                  (SendMessage.loop n wsSend msg replies before (st :: d) w2).2.2.2) := by
              rw [SendMessage.loop]
              simp [hp, hH, hN, hS]
            refine ⟨p :: before, q, later, by rw [h1]; rfl, ?_, ?_, ?_⟩
            · rw [e]; exact h2
            · rw [e]; exact h3
            · rw [attempts_append, h4]
              simp [attempts]

theorem sends_append (a b : List Event) : sends (a ++ b) = sends a ++ sends b := by
  simp [sends]

theorem sends_map_close (d : List Nat) : sends (d.map Event.close) = [] := by
  induction d with
  | nil => rfl
  | cons s d ih => simp [sends]

/-- A loop that ends without error on its first destinations goes on with the
destinations that follow, from the deferred closes and the world it has then;
what it did for the first ones stands. -/
theorem loop_append_ok {W : Type} (n : QriNode W)
    (wsSend : Nat → Message → W → Option String × W)
    (msg : Message) (replies : Option Nat) (before rest : List PeerID) (d : List Nat) (w : W)
    (h : (SendMessage.loop n wsSend msg replies before d w).2.2.1 = GoResult.ok) :
    SendMessage.loop n wsSend msg replies (before ++ rest) d w
      = ((SendMessage.loop n wsSend msg replies before d w).1
          ++ (SendMessage.loop n wsSend msg replies rest
                (SendMessage.loop n wsSend msg replies before d w).2.1
                (SendMessage.loop n wsSend msg replies before d w).2.2.2).1,
        (SendMessage.loop n wsSend msg replies rest
          (SendMessage.loop n wsSend msg replies before d w).2.1
          (SendMessage.loop n wsSend msg replies before d w).2.2.2).2) := by
  induction before generalizing d w with
  | nil => simp [SendMessage.loop]
  | cons q qs ih =>
    by_cases hq : q = n.ID
    · have e : ∀ l, SendMessage.loop n wsSend msg replies (q :: l) d w
          = SendMessage.loop n wsSend msg replies l d w := by
        intro l
        rw [SendMessage.loop]
        simp [hq]
      rw [List.cons_append, e, e]
      rw [e] at h
      exact ih d w h
    · rw [SendMessage.loop] at h
      simp only [hq, if_false] at h
      cases hH : n.Host with
      | none => simp [hH] at h
      | some hst =>
        simp only [hH] at h
        rcases hN : hst.NewStream q w with ⟨r, w1⟩
        simp only [hN] at h
        cases r with
        | error e => simp at h
        | ok st =>
          simp only at h
          rcases hS : wsSend st msg w1 with ⟨o, w2⟩
          simp only [hS] at h
          cases o with
          | some e => simp at h
          | none =>
            simp only at h
            have e : ∀ l, SendMessage.loop n wsSend msg replies (q :: l) d w
                = ([Event.newStream q, Event.spawnHandleStream st replies,
                      Event.sendMessage st msg]
                    ++ (SendMessage.loop n wsSend msg replies l (st :: d) w2).1,
                  (SendMessage.loop n wsSend msg replies l (st :: d) w2).2) := by
              intro l
              rw [SendMessage.loop]
              simp [hq, hH, hN, hS]
            rw [List.cons_append, e, e, ih (st :: d) w2 h]
            simp

/-- A destination at which opening or sending fails ends the loop with that
failure: the loop calls `NewStream` for it and for nothing after it. -/
theorem loop_failing_head {W : Type} (n : QriNode W)
    (wsSend : Nat → Message → W → Option String × W)
    (msg : Message) (replies : Option Nat) (p : PeerID) (later : List PeerID) (d : List Nat)
    (w : W) (res : GoResult) (hp : p ≠ n.ID) (hf : failsAt n wsSend msg p w res) :
    (SendMessage.loop n wsSend msg replies (p :: later) d w).2.2.1 = res
    ∧ res ≠ GoResult.ok
    ∧ attempts (SendMessage.loop n wsSend msg replies (p :: later) d w).1 = [p]
    ∧ (sends (SendMessage.loop n wsSend msg replies (p :: later) d w).1).length ≤ 1 := by
  rw [SendMessage.loop]
  simp only [hp, if_false]
  unfold failsAt at hf
  cases hH : n.Host with
  | none =>
    simp only [hH] at hf
    simp [hf, attempts, sends]
  | some hst =>
    simp only [hH] at hf
    simp only
    rcases hN : hst.NewStream p w with ⟨r, w1⟩
    simp only [hN] at hf
    cases r with
    | error e =>
      simp only at hf
      simp [hf, attempts, sends]
    | ok st =>
      simp only at hf ⊢
      rcases hS : wsSend st msg w1 with ⟨o, w2⟩
      simp only [hS] at hf
      cases o with
      | some e =>
        simp only at hf
        simp [hf, attempts, sends]
      | none => exact absurd hf (by simp)

/-- C3, amended: when opening a stream or sending to a destination fails (or
the host is nil) after the non-self destinations before it were delivered
without error, `SendMessage` returns that failure (an open failure wrapped as
"error opening stream: ...", a send failure as it is), calls `NewStream` for
that destination last and for no later one, and the sends issued before stay
issued; and conversely, whenever `SendMessage` does not return nil, its result
is such a first failure. -/
theorem C3_sendMessage_stops_at_first_failure {W : Type} (n : QriNode W)
    (wsSend : Nat → Message → W → Option String × W)
    (msg : Message) (replies : Option Nat) (pids : List PeerID) (w : W) :
    (∀ before p later res, pids.filter (notSelf n.ID) = before ++ p :: later →
      (SendMessage n wsSend msg replies before w).result = GoResult.ok →
      failsAt n wsSend msg p (SendMessage n wsSend msg replies before w).world res →
      (SendMessage n wsSend msg replies pids w).result = res
      ∧ res ≠ GoResult.ok
      ∧ attempts (SendMessage n wsSend msg replies pids w).events = before ++ [p]
      ∧ (∀ q ∈ later, q ∉ before → q ≠ p →
          q ∉ attempts (SendMessage n wsSend msg replies pids w).events)
      ∧ ∃ extra, sends (SendMessage n wsSend msg replies pids w).events
          = sends (SendMessage n wsSend msg replies before w).events ++ extra
        ∧ extra.length ≤ 1)
    ∧ ((SendMessage n wsSend msg replies pids w).result ≠ GoResult.ok →
      ∃ before p later, pids.filter (notSelf n.ID) = before ++ p :: later
        ∧ (SendMessage n wsSend msg replies before w).result = GoResult.ok
        ∧ failsAt n wsSend msg p (SendMessage n wsSend msg replies before w).world
            (SendMessage n wsSend msg replies pids w).result
        ∧ attempts (SendMessage n wsSend msg replies pids w).events = before ++ [p]) := by
  constructor
  · intro before p later res hsplit hok hf
    have hmem : ∀ q ∈ before ++ p :: later, q ≠ n.ID := by
      intro q hq
      rw [← hsplit, List.mem_filter] at hq
      simpa [notSelf] using hq.2
    have hp : p ≠ n.ID := hmem p (by simp)
    have hbefore : before.filter (notSelf n.ID) = before := by
      rw [List.filter_eq_self]
      intro q hq
      simp [notSelf, hmem q (by simp [hq])]
    have hloop : SendMessage.loop n wsSend msg replies pids [] w
        = SendMessage.loop n wsSend msg replies (before ++ p :: later) [] w := by
      rw [← hsplit, loop_filter_self]
    have hok1 : (SendMessage.loop n wsSend msg replies before [] w).2.2.1 = GoResult.ok := hok
    have happ := loop_append_ok n wsSend msg replies before (p :: later) [] w hok1
    obtain ⟨h1, h2, h3, h4⟩ := loop_failing_head n wsSend msg replies p later
      (SendMessage.loop n wsSend msg replies before [] w).2.1
      (SendMessage.loop n wsSend msg replies before [] w).2.2.2 res hp hf
    have hattB : attempts (SendMessage.loop n wsSend msg replies before [] w).1 = before := by
      obtain ⟨l, e1, e2, _⟩ := loop_attempts_segment n wsSend msg replies before [] w
      rw [hbefore, e2 hok1, List.append_nil] at e1
      exact e1.symm
    have hatt : attempts (SendMessage n wsSend msg replies pids w).events = before ++ [p] := by
      simp only [SendMessage, attempts_append, attempts_map_close, List.append_nil]
      rw [hloop, happ]
      simp only [attempts_append, hattB, h3]
    refine ⟨?_, h2, hatt, ?_, ?_⟩
    · show (SendMessage.loop n wsSend msg replies pids [] w).2.2.1 = res
      rw [hloop, happ]
      exact h1
    · intro q _ hq1 hq2 hq
      rw [hatt] at hq
      rcases List.mem_append.mp hq with h | h
      · exact hq1 h
      · exact hq2 (by simpa using h)
    · refine ⟨sends (SendMessage.loop n wsSend msg replies (p :: later)
          (SendMessage.loop n wsSend msg replies before [] w).2.1
          (SendMessage.loop n wsSend msg replies before [] w).2.2.2).1, ?_, h4⟩
      simp only [SendMessage, sends_append, sends_map_close, List.append_nil]
      rw [hloop, happ]
      simp only [sends_append]
  · intro h
    obtain ⟨before, p, later, h1, h2, h3, h4⟩ :=
      loop_stops_at_failure n wsSend msg replies pids [] w h
    refine ⟨before, p, later, h1, h2, h3, ?_⟩
    simpa only [SendMessage, attempts_append, attempts_map_close, List.append_nil] using h4

/-- C3 at a concrete input: three destinations, the send to the second fails:
`SendMessage` returns that send error, the third destination is not tried,
and the send to the first stays issued. -/
theorem C3_sendMessage_stops_at_first_failure_witness :
    (SendMessage demoNode flakySend ping none ["QmA", "QmB", "QmC"] 0).result
      = GoResult.err "stream reset"
    ∧ GoResult.err "stream reset" ≠ GoResult.ok
    ∧ attempts (SendMessage demoNode flakySend ping none ["QmA", "QmB", "QmC"] 0).events
      = ["QmA"] ++ ["QmB"]
    ∧ (∀ q ∈ ["QmC"], q ∉ ["QmA"] → q ≠ "QmB" →
        q ∉ attempts (SendMessage demoNode flakySend ping none ["QmA", "QmB", "QmC"] 0).events)
    ∧ ∃ extra, sends (SendMessage demoNode flakySend ping none ["QmA", "QmB", "QmC"] 0).events
        = sends (SendMessage demoNode flakySend ping none ["QmA"] 0).events ++ extra
      ∧ extra.length ≤ 1 :=
  (C3_sendMessage_stops_at_first_failure demoNode flakySend ping none ["QmA", "QmB", "QmC"] 0).1
    ["QmA"] "QmB" ["QmC"] (GoResult.err "stream reset") (by decide) (by decide)
    (show GoResult.err "stream reset" = GoResult.err "stream reset" from rfl)

/-- C3 as stated fails: with destinations `QmDown` (unreachable) and `QmB`,
`SendMessage` returns the open error of `QmDown` and never calls `NewStream`
for the later destination `QmB`; and with three reachable destinations and a
failing send to the second, it returns the send error and never calls
`NewStream` for the third. -/
theorem C3_later_destination_not_attempted :
    (SendMessage demoNode demoSend ping none ["QmDown", "QmB"] 0).result
      = GoResult.err "error opening stream: dial backoff"
    ∧ "QmB" ≠ demoNode.ID
    ∧ "QmB" ∉ attempts (SendMessage demoNode demoSend ping none ["QmDown", "QmB"] 0).events
    ∧ (SendMessage demoNode demoSend ping none ["QmDown", "QmB"] 0).events
      = [Event.newStream "QmDown"]
    ∧ (SendMessage demoNode flakySend ping none ["QmA", "QmB", "QmC"] 0).result
      = GoResult.err "stream reset"
    ∧ "QmC" ≠ demoNode.ID
    ∧ "QmC" ∉ attempts (SendMessage demoNode flakySend ping none ["QmA", "QmB", "QmC"] 0).events
    ∧ (SendMessage demoNode flakySend ping none ["QmA", "QmB", "QmC"] 0).events
      = [Event.newStream "QmA", Event.spawnHandleStream 0 none, Event.sendMessage 0 ping,
         Event.newStream "QmB", Event.spawnHandleStream 1 none, Event.sendMessage 1 ping,
         Event.close 1, Event.close 0] := by
  decide

/-- The loop itself closes nothing, and the deferred closes it leaves are the
streams it handed to receive loops, latest first, on top of those before. -/
theorem loop_defers {W : Type} (n : QriNode W)
    (wsSend : Nat → Message → W → Option String × W)
    (msg : Message) (replies : Option Nat) (pids : List PeerID) (d : List Nat) (w : W) :
    closes (SendMessage.loop n wsSend msg replies pids d w).1 = []
    ∧ (SendMessage.loop n wsSend msg replies pids d w).2.1
        = (spawned (SendMessage.loop n wsSend msg replies pids d w).1).reverse ++ d := by
  induction pids generalizing d w with
  | nil => simp [SendMessage.loop, closes, spawned]
  | cons p ps ih =>
    rw [SendMessage.loop]
    by_cases hp : p = n.ID
    · simpa [hp] using ih d w
    · simp only [hp, if_false]
      cases n.Host with
      | none => simp [closes, spawned]
      | some hst =>
        simp only
        rcases hst.NewStream p w with ⟨r, w1⟩
        cases r with
        | error e => simp [closes, spawned]
        | ok st =>
          simp only
          rcases wsSend st msg w1 with ⟨o, w2⟩
          cases o with
          | some e => simp [closes, spawned]
          | none =>
            obtain ⟨h1, h2⟩ := ih (st :: d) w2
            simp only [closes_append, spawned_append, h1, h2]
            simp [closes, spawned]

/-- The receive loop closes no stream. -/
theorem closes_handleStream {W : Type} (n : QriNode W) (ws : Nat) (replies : Option Nat)
    (script : List RecvResult) (w : W) :
    closes (handleStream n ws replies script w).events = [] := by
  induction script generalizing w with
  | nil => simp [handleStream, closes]
  | cons r script ih =>
    cases r with
    | error e =>
      rw [(handleStream_error n ws replies e script w).2.2.2]
      by_cases he : e = "EOF" <;> simp [he, closes]
    | msg m =>
      cases hl : n.handlers.lookup m.Typ with
      | none =>
        rw [handleStream_unknown n ws replies m script w hl]
        simp [closes_append, closes_postsOf]
        simp [closes]
      | some handler =>
        cases hh : (handler ws m w).1 with
        | true =>
          rw [handleStream_hangup n ws replies m script w handler hl hh]
          simp [closes_append, closes_postsOf]
          simp [closes]
        | false =>
          rw [handleStream_continue n ws replies m script w handler hl hh]
          simp only [closes_append, closes_postsOf, ih]
          simp [closes]

/-- C4, evaluated: on a node whose ping handler answers `hangup = false`, a
ping with `HangUp = true` followed by a second ping: the loop does not exit
after the first, it receives, posts and dispatches the second as well and
goes on waiting for more. -/
theorem C4_hangup_field_not_checked :
    hangupPing.HangUp = true
    ∧ receives (handleStream demoNode 3 none [RecvResult.msg hangupPing, RecvResult.msg ping] 0).events
        = [RecvResult.msg hangupPing, RecvResult.msg ping]
    ∧ handled (handleStream demoNode 3 none [RecvResult.msg hangupPing, RecvResult.msg ping] 0).events
        = [hangupPing, ping]
    ∧ (handleStream demoNode 3 none [RecvResult.msg hangupPing, RecvResult.msg ping] 0).status
        = LoopStatus.blocked := by
  decide

/-- C5, amended: on a node with `Online = true`, whatever `StartDiscovery`
returns and finds, `StartOnlineServices` calls `bootstrapped("")` exactly once
on its own goroutine, as its last action (the deferred call), and returns the
result of `StartDiscovery`; a peer that was found is reported by the waiting
goroutine in a call of its own. On a node with `Online = false` it returns
nil and calls nothing. -/
theorem C5_bootstrapped_called_when_online {W : Type} (n : QriNode W) (pretty : PeerID → String)
    (StartDiscovery : W → Option String × List PeerID × W) (w : W) :
    (n.Online = true →
      callbacks (StartOnlineServices n pretty StartDiscovery w).events = [""]
      ∧ (StartOnlineServices n pretty StartDiscovery w).events.getLast? = some (Event.bootstrapped "")
      ∧ (StartOnlineServices n pretty StartDiscovery w).waiter
          = (StartDiscovery w).2.1.head?.map pretty
      ∧ (StartOnlineServices n pretty StartDiscovery w).result
          = (match (StartDiscovery w).1 with
            | none => GoResult.ok
            | some e => GoResult.err e))
    ∧ (n.Online = false →
      (StartOnlineServices n pretty StartDiscovery w).events = []
      ∧ (StartOnlineServices n pretty StartDiscovery w).waiter = none
      ∧ (StartOnlineServices n pretty StartDiscovery w).result = GoResult.ok) := by
  constructor
  · intro h
    simp [StartOnlineServices, h, callbacks]
  · intro h
    simp [StartOnlineServices, h]

/-- C5 at a concrete input: an online node whose discovery finds no peer. -/
theorem C5_bootstrapped_called_when_online_witness :
    callbacks (StartOnlineServices demoNode id quietDiscovery 0).events = [""]
    ∧ (StartOnlineServices demoNode id quietDiscovery 0).events.getLast?
        = some (Event.bootstrapped "")
    ∧ (StartOnlineServices demoNode id quietDiscovery 0).waiter
        = (quietDiscovery 0).2.1.head?.map id
    ∧ (StartOnlineServices demoNode id quietDiscovery 0).result
        = (match (quietDiscovery 0).1 with
          | none => GoResult.ok
          | some e => GoResult.err e) :=
  (C5_bootstrapped_called_when_online demoNode id quietDiscovery 0).1 rfl

/-- C5 as stated fails: on the offline node `StartOnlineServices` returns nil
without ever calling `bootstrapped`, neither itself nor from a goroutine. -/
theorem C5_offline_never_calls_back :
    offlineNode.Online = false
    ∧ callbacks (StartOnlineServices offlineNode id quietDiscovery 0).events = []
    ∧ (StartOnlineServices offlineNode id quietDiscovery 0).events = []
    ∧ (StartOnlineServices offlineNode id quietDiscovery 0).waiter = none
    ∧ (StartOnlineServices offlineNode id quietDiscovery 0).result = GoResult.ok := by
  decide

/-- On a node without host, `SendMessage` faults at the first destination
that is not the node itself. -/
theorem sendMessage_nil_host_faults {W : Type} (n : QriNode W)
    (wsSend : Nat → Message → W → Option String × W)
    (msg : Message) (replies : Option Nat) (pids : List PeerID) (w : W)
    (hH : n.Host = none) (hp : ∃ p ∈ pids, p ≠ n.ID) :
    (SendMessage n wsSend msg replies pids w).result = GoResult.fault := by
  have key : ∀ d, (SendMessage.loop n wsSend msg replies pids d w).2.2.1 = GoResult.fault := by
    induction pids with
    | nil => simp at hp
    | cons q qs ih =>
      intro d
      rw [SendMessage.loop]
      by_cases hq : q = n.ID
      · simp only [hq, if_true]
        apply ih
        obtain ⟨p, hp1, hp2⟩ := hp
        rcases List.mem_cons.mp hp1 with h | h
        · exact absurd (h.trans hq) hp2
        · exact ⟨p, h, hp2⟩
      · simp [hq, hH]
  exact key []

/-- C6, evaluated: on the node left by `NewQriNode` with `Online = false`
(no host), `StartOnlineServices` returns nil without effect and
`ConnectedQriProfiles` is the empty map, but `SendMessage` to the other peer
`QmB` reaches the call of `NewStream` on the nil host and faults there; it
returns neither nil nor an error. -/
theorem C6_offline_sendMessage_faults :
    offlineNode.Online = false
    ∧ offlineNode.Host.isNone = true
    ∧ (StartOnlineServices offlineNode id quietDiscovery 0).events = []
    ∧ (StartOnlineServices offlineNode id quietDiscovery 0).result = GoResult.ok
    ∧ ConnectedQriProfiles offlineNode (fun _ _ => Except.error "not found") 0 = []
    ∧ "QmB" ≠ offlineNode.ID
    ∧ (SendMessage offlineNode demoSend ping none ["QmB"] 0).events = [Event.newStream "QmB"]
    ∧ (SendMessage offlineNode demoSend ping none ["QmB"] 0).result = GoResult.fault := by
  decide

/-- A profile that cannot be read: the error comes back with the node built
so far, after the stream handler was registered and the failure logged;
`echoMessages` is not started. -/
theorem newQriNode_profile_read_error {W : Type} (r : Repo W) (defaultCfg : P2PConfig)
    (options : List (P2PConfig → P2PConfig)) (impl : HandlerImpl W)
    (pretty : PeerID → String) (NewMultiaddr : String → Except String String)
    (newSwarm : P2PConfig → PeerID → W → Except String (Host W)) (w : W)
    (pid : PeerID) (h : Host W) (e : String)
    (hpid : (applyOptions defaultCfg options).DecodePeerID = Except.ok pid)
    (hen : (applyOptions defaultCfg options).Enabled = true)
    (hhost : nodeHost r (applyOptions defaultCfg options) newSwarm w = Except.ok (some h))
    (hprof : r.Profile w = Except.error e) :
    (NewQriNode r defaultCfg options impl pretty NewMultiaddr newSwarm w).result = GoResult.err e
    ∧ (NewQriNode r defaultCfg options impl pretty NewMultiaddr newSwarm w).events
        = [Event.setStreamHandler, Event.logError e]
    ∧ (NewQriNode r defaultCfg options impl pretty NewMultiaddr newSwarm w).world = w
    ∧ ∃ nd, (NewQriNode r defaultCfg options impl pretty NewMultiaddr newSwarm w).node = some nd
        ∧ nd.ID = pid ∧ nd.Online = true ∧ nd.Host = some h
        ∧ nd.handlers = MakeHandlers impl := by
  unfold NewQriNode
  simp only [hpid, hen, if_true]
  unfold nodeHost at hhost
  cases hst : r.Store with
  | ipfs PeerHost Discovery =>
    simp only [hst] at hhost
    injection hhost with hhost
    subst hhost
    cases Discovery <;> simp [hprof]
  | other =>
    simp only [hst] at hhost
    cases hmk : makeBasicHost (applyOptions defaultCfg options) newSwarm w with
    | error e2 => simp [hmk] at hhost
    | ok h2 =>
      simp only [hmk] at hhost
      injection hhost with hhost
      injection hhost with hhost
      subst hhost
      simp [hprof]

/-- A profile that cannot be written back: the error comes back with the node
built so far, after the stream handler was registered; `echoMessages` is not
started. -/
theorem newQriNode_profile_write_error {W : Type} (r : Repo W) (defaultCfg : P2PConfig)
    (options : List (P2PConfig → P2PConfig)) (impl : HandlerImpl W)
    (pretty : PeerID → String) (NewMultiaddr : String → Except String String)
    (newSwarm : P2PConfig → PeerID → W → Except String (Host W)) (w w1 : W)
    (pid : PeerID) (h : Host W) (p : Profile) (e : String)
    (hpid : (applyOptions defaultCfg options).DecodePeerID = Except.ok pid)
    (hen : (applyOptions defaultCfg options).Enabled = true)
    (hhost : nodeHost r (applyOptions defaultCfg options) newSwarm w = Except.ok (some h))
    (hprof : r.Profile w = Except.ok p)
    (hset : r.SetProfile (writtenProfile pretty NewMultiaddr pid h p) w = (some e, w1)) :
    (NewQriNode r defaultCfg options impl pretty NewMultiaddr newSwarm w).result = GoResult.err e
    ∧ (NewQriNode r defaultCfg options impl pretty NewMultiaddr newSwarm w).events
        = [Event.setStreamHandler]
    ∧ (NewQriNode r defaultCfg options impl pretty NewMultiaddr newSwarm w).world = w1
    ∧ ∃ nd, (NewQriNode r defaultCfg options impl pretty NewMultiaddr newSwarm w).node = some nd
        ∧ nd.ID = pid ∧ nd.Online = true ∧ nd.Host = some h
        ∧ nd.handlers = MakeHandlers impl := by
  unfold writtenProfile at hset
  unfold NewQriNode
  simp only [hpid, hen, if_true]
  unfold nodeHost at hhost
  cases hst : r.Store with
  | ipfs PeerHost Discovery =>
    simp only [hst] at hhost
    injection hhost with hhost
    subst hhost
    cases Discovery <;> simp [hprof, hset]
  | other =>
    simp only [hst] at hhost
    cases hmk : makeBasicHost (applyOptions defaultCfg options) newSwarm w with
    | error e2 => simp [hmk] at hhost
    | ok h2 =>
      simp only [hmk] at hhost
      injection hhost with hhost
      injection hhost with hhost
      subst hhost
      simp [hprof, hset]

/-- An error that comes with a non-nil node is the error of reading the
profile, or of writing back the profile read with the listen addresses
entered, on a node with networking enabled and a host. -/
theorem newQriNode_error_with_node {W : Type} (r : Repo W) (defaultCfg : P2PConfig)
    (options : List (P2PConfig → P2PConfig)) (impl : HandlerImpl W)
    (pretty : PeerID → String) (NewMultiaddr : String → Except String String)
    (newSwarm : P2PConfig → PeerID → W → Except String (Host W)) (w : W) (e : String)
    (hres : (NewQriNode r defaultCfg options impl pretty NewMultiaddr newSwarm w).result
      = GoResult.err e)
    (hnode : (NewQriNode r defaultCfg options impl pretty NewMultiaddr newSwarm w).node.isSome
      = true) :
    (applyOptions defaultCfg options).Enabled = true
    ∧ ∃ pid h, (applyOptions defaultCfg options).DecodePeerID = Except.ok pid
      ∧ nodeHost r (applyOptions defaultCfg options) newSwarm w = Except.ok (some h)
      ∧ (r.Profile w = Except.error e
        ∨ ∃ p, r.Profile w = Except.ok p
          ∧ (r.SetProfile (writtenProfile pretty NewMultiaddr pid h p) w).1 = some e) := by
  cases hpid : (applyOptions defaultCfg options).DecodePeerID with
  | error e1 =>
    rw [(show (NewQriNode r defaultCfg options impl pretty NewMultiaddr newSwarm w).node = none
      by simp [NewQriNode, hpid])] at hnode
    cases hnode
  | ok pid =>
    cases hen : (applyOptions defaultCfg options).Enabled with
    | false =>
      rw [(show (NewQriNode r defaultCfg options impl pretty NewMultiaddr newSwarm w).result
        = GoResult.ok by simp [NewQriNode, hpid, hen])] at hres
      cases hres
    | true =>
      refine ⟨rfl, pid, ?_⟩
      cases hh : nodeHost r (applyOptions defaultCfg options) newSwarm w with
      | error e2 =>
        have : (NewQriNode r defaultCfg options impl pretty NewMultiaddr newSwarm w).node
            = none := by
          unfold nodeHost at hh
          unfold NewQriNode
          simp only [hpid, hen, if_true]
          cases hst : r.Store with
          | ipfs PeerHost Discovery => simp [hst] at hh
          | other =>
            simp only [hst] at hh
            cases hmk : makeBasicHost (applyOptions defaultCfg options) newSwarm w with
            | error e3 => simp
            | ok h3 => simp [hmk] at hh
        rw [this] at hnode
        cases hnode
      | ok oh =>
        cases oh with
        | none =>
          have : (NewQriNode r defaultCfg options impl pretty NewMultiaddr newSwarm w).node
              = none := by
            unfold nodeHost at hh
            unfold NewQriNode
            simp only [hpid, hen, if_true]
            cases hst : r.Store with
            | ipfs PeerHost Discovery =>
              simp only [hst] at hh
              injection hh with hh
              subst hh
              cases Discovery <;> simp
            | other =>
              simp only [hst] at hh
              cases hmk : makeBasicHost (applyOptions defaultCfg options) newSwarm w with
              | error e3 => simp
              | ok h3 => simp [hmk] at hh
          rw [this] at hnode
          cases hnode
        | some h =>
          refine ⟨h, rfl, rfl, ?_⟩
          cases hp : r.Profile w with
          | error e2 =>
            left
            have := (newQriNode_profile_read_error r defaultCfg options impl pretty NewMultiaddr
              newSwarm w pid h e2 hpid hen hh hp).1
            rw [this] at hres
            injection hres with hres
            rw [hres]
          | ok p =>
            right
            refine ⟨p, rfl, ?_⟩
            rcases hs : r.SetProfile (writtenProfile pretty NewMultiaddr pid h p) w with ⟨o, w1⟩
            cases o with
            | some e2 =>
              have := (newQriNode_profile_write_error r defaultCfg options impl pretty
                NewMultiaddr newSwarm w w1 pid h p e2 hpid hen hh hp hs).1
              rw [this] at hres
              injection hres with hres
              rw [hres]
            | none =>
              exfalso
              have : (NewQriNode r defaultCfg options impl pretty NewMultiaddr newSwarm w).result
                  = GoResult.ok := by
                unfold writtenProfile at hs
                unfold nodeHost at hh
                unfold NewQriNode
                simp only [hpid, hen, if_true]
                cases hst : r.Store with
                | ipfs PeerHost Discovery =>
                  simp only [hst] at hh
                  injection hh with hh
                  subst hh
                  cases Discovery <;> simp [hp, hs]
                | other =>
                  simp only [hst] at hh
                  cases hmk : makeBasicHost (applyOptions defaultCfg options) newSwarm w with
                  | error e3 => simp [hmk] at hh
                  | ok h3 =>
                    simp only [hmk] at hh
                    injection hh with hh
                    injection hh with hh
                    subst hh
                    simp [hp, hs]
              rw [this] at hres
              cases hres

/-- C7, amended: when peer-id decoding fails, or host construction fails,
`NewQriNode` returns the wrapped error and a nil node. When the repository
profile cannot be read, or the profile read cannot be written back with the
listen addresses entered, it returns that error together with the non-nil
node built so far: the stream handler is registered (and a read failure
logged), `echoMessages` is not started. These are the only cases in which an
error comes with a non-nil node. -/
theorem C7_error_with_nil_node {W : Type} (r : Repo W) (defaultCfg : P2PConfig)
    (options : List (P2PConfig → P2PConfig)) (impl : HandlerImpl W)
    (pretty : PeerID → String) (NewMultiaddr : String → Except String String)
    (newSwarm : P2PConfig → PeerID → W → Except String (Host W)) (w : W) :
    (∀ e, (applyOptions defaultCfg options).DecodePeerID = Except.error e →
      (NewQriNode r defaultCfg options impl pretty NewMultiaddr newSwarm w).node.isNone = true
      ∧ (NewQriNode r defaultCfg options impl pretty NewMultiaddr newSwarm w).result
          = GoResult.err ("error decoding peer id: " ++ e))
    ∧ (∀ pid e, (applyOptions defaultCfg options).DecodePeerID = Except.ok pid →
        (applyOptions defaultCfg options).Enabled = true → r.Store = Store.other →
        makeBasicHost (applyOptions defaultCfg options) newSwarm w = Except.error e →
      (NewQriNode r defaultCfg options impl pretty NewMultiaddr newSwarm w).node.isNone = true
      ∧ (NewQriNode r defaultCfg options impl pretty NewMultiaddr newSwarm w).result
          = GoResult.err ("error creating host: " ++ e))
    ∧ (∀ pid h e, (applyOptions defaultCfg options).DecodePeerID = Except.ok pid →
        (applyOptions defaultCfg options).Enabled = true →
        nodeHost r (applyOptions defaultCfg options) newSwarm w = Except.ok (some h) →
        r.Profile w = Except.error e →
      (NewQriNode r defaultCfg options impl pretty NewMultiaddr newSwarm w).result
          = GoResult.err e
      ∧ (NewQriNode r defaultCfg options impl pretty NewMultiaddr newSwarm w).events
          = [Event.setStreamHandler, Event.logError e]
      ∧ (NewQriNode r defaultCfg options impl pretty NewMultiaddr newSwarm w).world = w
      ∧ ∃ nd, (NewQriNode r defaultCfg options impl pretty NewMultiaddr newSwarm w).node
            = some nd
          ∧ nd.ID = pid ∧ nd.Online = true ∧ nd.Host = some h
          ∧ nd.handlers = MakeHandlers impl)
    ∧ (∀ pid h p e w1, (applyOptions defaultCfg options).DecodePeerID = Except.ok pid →
        (applyOptions defaultCfg options).Enabled = true →
        nodeHost r (applyOptions defaultCfg options) newSwarm w = Except.ok (some h) →
        r.Profile w = Except.ok p →
        r.SetProfile (writtenProfile pretty NewMultiaddr pid h p) w = (some e, w1) →
      (NewQriNode r defaultCfg options impl pretty NewMultiaddr newSwarm w).result
          = GoResult.err e
      ∧ (NewQriNode r defaultCfg options impl pretty NewMultiaddr newSwarm w).events
          = [Event.setStreamHandler]
      ∧ (NewQriNode r defaultCfg options impl pretty NewMultiaddr newSwarm w).world = w1
      ∧ ∃ nd, (NewQriNode r defaultCfg options impl pretty NewMultiaddr newSwarm w).node
            = some nd
          ∧ nd.ID = pid ∧ nd.Online = true ∧ nd.Host = some h
          ∧ nd.handlers = MakeHandlers impl)
    ∧ (∀ e, (NewQriNode r defaultCfg options impl pretty NewMultiaddr newSwarm w).result
          = GoResult.err e →
        (NewQriNode r defaultCfg options impl pretty NewMultiaddr newSwarm w).node.isSome = true →
      (applyOptions defaultCfg options).Enabled = true
      ∧ ∃ pid h, (applyOptions defaultCfg options).DecodePeerID = Except.ok pid
        ∧ nodeHost r (applyOptions defaultCfg options) newSwarm w = Except.ok (some h)
        ∧ (r.Profile w = Except.error e
          ∨ ∃ p, r.Profile w = Except.ok p
            ∧ (r.SetProfile (writtenProfile pretty NewMultiaddr pid h p) w).1 = some e)) := by
  refine ⟨?_, ?_, ?_, ?_, ?_⟩
  · intro e he
    simp [NewQriNode, he]
  · intro pid e hpid hen hst hmk
    simp [NewQriNode, hpid, hen, hst, hmk]
  · intro pid h e hpid hen hhost hprof
    exact newQriNode_profile_read_error r defaultCfg options impl pretty NewMultiaddr newSwarm w
      pid h e hpid hen hhost hprof
  · intro pid h p e w1 hpid hen hhost hprof hset
    exact newQriNode_profile_write_error r defaultCfg options impl pretty NewMultiaddr newSwarm
      w w1 pid h p e hpid hen hhost hprof hset
  · intro e hres hnode
    exact newQriNode_error_with_node r defaultCfg options impl pretty NewMultiaddr newSwarm w e
      hres hnode

/-- C7 at a concrete input: networking enabled, good key material, a
repository whose profile can be read and cannot be written back. -/
theorem C7_error_with_nil_node_witness :
    (NewQriNode readOnlyRepo demoCfg [] demoImpl id Except.ok demoSwarm 0).result
        = GoResult.err "repo is read-only"
    ∧ (NewQriNode readOnlyRepo demoCfg [] demoImpl id Except.ok demoSwarm 0).events
        = [Event.setStreamHandler]
    ∧ (NewQriNode readOnlyRepo demoCfg [] demoImpl id Except.ok demoSwarm 0).world = 0
    ∧ ∃ nd, (NewQriNode readOnlyRepo demoCfg [] demoImpl id Except.ok demoSwarm 0).node = some nd
        ∧ nd.ID = "QmSelf" ∧ nd.Online = true ∧ nd.Host = some demoHost
        ∧ nd.handlers = MakeHandlers demoImpl :=
  (C7_error_with_nil_node readOnlyRepo demoCfg [] demoImpl id Except.ok demoSwarm 0).2.2.2.1
    "QmSelf" demoHost (profileWith none) "repo is read-only" 0 rfl rfl rfl rfl rfl

/-- C7 as stated fails: with networking enabled and good key material,
`NewQriNode` returns the error together with a node that is not nil both when
the repository profile cannot be read and when it cannot be written back. -/
theorem C7_profile_error_returns_node :
    (NewQriNode brokenRepo demoCfg [] demoImpl id Except.ok demoSwarm 0).result
        = GoResult.err "profile not found"
    ∧ (NewQriNode brokenRepo demoCfg [] demoImpl id Except.ok demoSwarm 0).node.isSome = true
    ∧ (NewQriNode brokenRepo demoCfg [] demoImpl id Except.ok demoSwarm 0).events
        = [Event.setStreamHandler, Event.logError "profile not found"]
    ∧ (NewQriNode readOnlyRepo demoCfg [] demoImpl id Except.ok demoSwarm 0).result
        = GoResult.err "repo is read-only"
    ∧ (NewQriNode readOnlyRepo demoCfg [] demoImpl id Except.ok demoSwarm 0).node.isSome = true
    ∧ (NewQriNode readOnlyRepo demoCfg [] demoImpl id Except.ok demoSwarm 0).events
        = [Event.setStreamHandler] := by
  decide

/-- Every node `NewQriNode` returns carries the table of `MakeHandlers`. -/
theorem newQriNode_handlers {W : Type} (r : Repo W) (defaultCfg : P2PConfig)
    (options : List (P2PConfig → P2PConfig)) (impl : HandlerImpl W)
    (pretty : PeerID → String) (NewMultiaddr : String → Except String String)
    (newSwarm : P2PConfig → PeerID → W → Except String (Host W)) (w : W) (nd : QriNode W)
    (h : (NewQriNode r defaultCfg options impl pretty NewMultiaddr newSwarm w).node = some nd) :
    nd.handlers = MakeHandlers impl := by
  unfold NewQriNode at h
  simp only at h
  cases hpid : (applyOptions defaultCfg options).DecodePeerID with
  | error e1 => simp [hpid] at h
  | ok pid =>
    simp only [hpid] at h
    cases hen : (applyOptions defaultCfg options).Enabled with
    | false =>
      simp [hen] at h
      rw [← h]
    | true =>
      simp only [hen, if_true] at h
      cases hst : r.Store with
      | ipfs PeerHost Discovery =>
        simp only [hst] at h
        cases PeerHost <;> cases Discovery <;> simp only at h <;>
          first
          | (simp at h)
          | (cases hp : r.Profile w with
              | error e2 =>
                simp [hp] at h
                rw [← h]
              | ok p =>
                simp only [hp] at h
                rcases hs : r.SetProfile _ w with ⟨o, w1⟩
                rw [hs] at h
                cases o <;> (simp at h; rw [← h]))
      | other =>
        simp only [hst] at h
        cases hmk : makeBasicHost (applyOptions defaultCfg options) newSwarm w with
        | error e2 => simp [hmk] at h
        | ok hh =>
          simp only [hmk] at h
          cases hp : r.Profile w with
          | error e2 =>
            simp [hp] at h
            rw [← h]
          | ok p =>
            simp only [hp] at h
            rcases hs : r.SetProfile _ w with ⟨o, w1⟩
            rw [hs] at h
            cases o <;> (simp at h; rw [← h])

/-- C8: the table built by `MakeHandlers` has one entry for each of the six
types Ping, Profile, Profiles, DatasetInfo, Datasets, Events, in that order and
none twice, each bound to the handler method of that type, and no entry for
any other type, so a lookup succeeds exactly for these six; and every node
returned by `NewQriNode` carries this table. -/
theorem C8_handler_table_six_types {W : Type} (impl : HandlerImpl W) :
    (∀ t : MsgType, ((MakeHandlers impl).lookup t).isSome = true ↔ t ∈ sixTypes)
    ∧ (MakeHandlers impl).map Prod.fst = sixTypes
    ∧ sixTypes.Nodup
    ∧ (∀ t ∈ sixTypes, ((MakeHandlers impl).map Prod.fst).count t = 1)
    ∧ (MakeHandlers impl).lookup MsgType.MtPing = some impl.handlePing
    ∧ (MakeHandlers impl).lookup MsgType.MtProfile = some impl.handleProfile
    ∧ (MakeHandlers impl).lookup MsgType.MtProfiles = some impl.handleProfiles
    ∧ (MakeHandlers impl).lookup MsgType.MtDatasetInfo = some impl.handleDataset
    ∧ (MakeHandlers impl).lookup MsgType.MtDatasets = some impl.handleDatasetsList
    ∧ (MakeHandlers impl).lookup MsgType.MtEvents = some impl.handleEvents
    ∧ (∀ tag, (MakeHandlers impl).lookup (MsgType.MtOther tag) = none)
    ∧ (∀ (r : Repo W) (defaultCfg : P2PConfig) (options : List (P2PConfig → P2PConfig))
        (pretty : PeerID → String) (NewMultiaddr : String → Except String String)
        (newSwarm : P2PConfig → PeerID → W → Except String (Host W)) (w : W) (nd : QriNode W),
        (NewQriNode r defaultCfg options impl pretty NewMultiaddr newSwarm w).node = some nd →
        nd.handlers = MakeHandlers impl) := by
  refine ⟨?_, rfl, by decide, ?_, rfl, rfl, rfl, rfl, rfl, rfl, fun _ => rfl, ?_⟩
  · intro t
    cases t with
    | MtOther tag =>
      have hnone : (MakeHandlers impl).lookup (MsgType.MtOther tag) = none := rfl
      rw [hnone]
      simp [sixTypes]
    | _ => exact ⟨fun _ => by simp [sixTypes], fun _ => rfl⟩
  · intro t ht
    have hkeys : (MakeHandlers impl).map Prod.fst = sixTypes := rfl
    rw [hkeys]
    revert t
    decide
  · intro r defaultCfg options pretty NewMultiaddr newSwarm w nd h
    exact newQriNode_handlers r defaultCfg options impl pretty NewMultiaddr newSwarm w nd h

/-- C8 at a concrete input: the node `NewQriNode` builds with networking
switched off by an option. -/
theorem C8_handler_table_six_types_witness :
    offlineNode.handlers = MakeHandlers demoImpl :=
  (C8_handler_table_six_types demoImpl).2.2.2.2.2.2.2.2.2.2.2 brokenRepo demoCfg
    [fun c => { c with Enabled := false }] id Except.ok demoSwarm 0 offlineNode
    (show (NewQriNode brokenRepo demoCfg [fun c => { c with Enabled := false }] demoImpl id
      Except.ok demoSwarm 0).node = some offlineNode from rfl)

/-- C9: the receive loop itself closes nothing; `QriStreamHandler` closes its
stream exactly once when the loop has returned, whatever ended it, as the last
event after everything the loop did, and not at all while the loop is still
receiving; `SendMessage` closes, after its loop and on every exit (nil, error
or fault), exactly the streams it opened and handed to receive loops, each as
often as it was opened, latest first. -/
theorem C9_stream_closed_exactly_once {W : Type} (n : QriNode W)
    (wsSend : Nat → Message → W → Option String × W) (msg : Message) (replies : Option Nat)
    (pids : List PeerID) (s : Nat) (script : List RecvResult) (w : W) :
    closes (handleStream n s none script w).events = []
    ∧ ((handleStream n s none script w).status = LoopStatus.returned →
        (QriStreamHandler n s script w).events
          = (handleStream n s none script w).events ++ [Event.close s]
        ∧ closes (QriStreamHandler n s script w).events = [s])
    ∧ ((handleStream n s none script w).status = LoopStatus.blocked →
        closes (QriStreamHandler n s script w).events = [])
    ∧ (∃ body, (SendMessage n wsSend msg replies pids w).events
          = body ++ (spawned body).reverse.map Event.close
        ∧ closes body = [])
    ∧ closes (SendMessage n wsSend msg replies pids w).events
        = (spawned (SendMessage n wsSend msg replies pids w).events).reverse
    ∧ (∀ st, (closes (SendMessage n wsSend msg replies pids w).events).count st
        = (spawned (SendMessage n wsSend msg replies pids w).events).count st) := by
  have hc := closes_handleStream n s none script w
  obtain ⟨hl1, hl2⟩ := loop_defers n wsSend msg replies pids [] w
  have hcl : closes (SendMessage n wsSend msg replies pids w).events
      = (spawned (SendMessage n wsSend msg replies pids w).events).reverse := by
    simp only [SendMessage, closes_append, spawned_append, hl1, hl2, closes_map_close,
      spawned_map_close, List.append_nil, List.nil_append]
  refine ⟨hc, ?_, ?_, ?_, hcl, ?_⟩
  · intro h
    simp [QriStreamHandler, h, closes_append, hc]
    simp [closes]
  · intro h
    simp [QriStreamHandler, h, hc]
  · refine ⟨(SendMessage.loop n wsSend msg replies pids [] w).1, ?_, hl1⟩
    simp only [SendMessage, hl2, List.append_nil]
  · intro st
    rw [hcl, List.count_reverse]

/-- C9 at a concrete input: a ping and then end-of-stream on stream 3. -/
theorem C9_stream_closed_exactly_once_witness :
    (QriStreamHandler demoNode 3 [RecvResult.msg ping, RecvResult.error "EOF"] 0).events
      = (handleStream demoNode 3 none [RecvResult.msg ping, RecvResult.error "EOF"] 0).events
          ++ [Event.close 3]
    ∧ closes (QriStreamHandler demoNode 3 [RecvResult.msg ping, RecvResult.error "EOF"] 0).events
      = [3] :=
  (C9_stream_closed_exactly_once demoNode demoSend ping none [] 3
    [RecvResult.msg ping, RecvResult.error "EOF"] 0).2.1 (by decide)

/-- What a step of a delivery goroutine can do: nothing (no such goroutine,
or parked on a channel that does not accept), evaluate its channel operand,
or complete its send on the channel it is parked on. -/
theorem echoStep_deliver (sub : Subscribers) (i : Nat) (st : EchoState) :
    echoStep sub (Step.deliver i) st = st
    ∨ (∃ d, st.pending.get? i = some d ∧ d.operand = none
        ∧ echoStep sub (Step.deliver i) st
          = { st with pending :=
                st.pending.set i { d with operand := some (st.loopVars.getD d.loopVar none) } })
    ∨ (∃ d c, st.pending.get? i = some d ∧ d.operand = some (some c)
        ∧ canSend sub c st.delivered = true
        ∧ echoStep sub (Step.deliver i) st
          = { st with pending := st.pending.eraseIdx i,
                      delivered := st.delivered ++ [(c, d.msg)] }) := by
  cases hd : st.pending.get? i with
  | none => exact Or.inl (by simp only [echoStep, hd])
  | some d =>
    rcases ho : d.operand with _ | _ | c
    · exact Or.inr (Or.inl ⟨d, rfl, ho, by simp only [echoStep, hd, ho]⟩)
    · exact Or.inl (by simp only [echoStep, hd, ho])
    · cases hs : canSend sub c st.delivered with
      | false =>
        refine Or.inl ?_
        simp only [echoStep, hd, ho, hs]
        simp
      | true =>
        refine Or.inr (Or.inr ⟨d, c, rfl, ho, hs, ?_⟩)
        simp only [echoStep, hd, ho, hs]
        simp

theorem map_msg_set (l : List Delivery) (i : Nat) (d : Delivery) (x : Option (Option Nat))
    (h : l.get? i = some d) :
    (l.set i { d with operand := x }).map Delivery.msg = l.map Delivery.msg := by
  induction l generalizing i with
  | nil => simp
  | cons a l ih =>
    cases i with
    | zero =>
      simp at h
      subst h
      simp
    | succ i =>
      simp at h
      simp only [List.set_cons_succ, List.map_cons]
      rw [ih i (by simpa using h)]

theorem echoStep_receivers (sub : Subscribers) (a : Step) (st : EchoState) :
    (echoStep sub a st).receivers = st.receivers := by
  rcases st with ⟨rcv, q, rg, lv, pend, strt, dlv⟩
  cases a with
  | dispatcher =>
    rcases rg with _ | ⟨m, _ | ⟨r, rs⟩⟩ <;> rcases q with _ | ⟨m1, q⟩ <;> simp [echoStep]
  | deliver i =>
    rcases echoStep_deliver sub i ⟨rcv, q, rg, lv, pend, strt, dlv⟩ with
      h | ⟨d, _, _, h⟩ | ⟨d, c, _, _, _, h⟩ <;> rw [h]

/-- No step changes what is owed: a goroutine started leaves the hand, a
message taken from the channel comes into the hand once per receiver. -/
theorem echoStep_owed (sub : Subscribers) (a : Step) (st : EchoState) :
    owed (echoStep sub a st) = owed st := by
  rcases st with ⟨rcv, q, rg, lv, pend, strt, dlv⟩
  cases a with
  | dispatcher =>
    rcases rg with _ | ⟨m, _ | ⟨r, rs⟩⟩ <;> rcases q with _ | ⟨m1, q⟩ <;>
      simp [echoStep, owed, inHand, List.replicate_succ]
  | deliver i =>
    rcases echoStep_deliver sub i ⟨rcv, q, rg, lv, pend, strt, dlv⟩ with
      h | ⟨d, _, _, h⟩ | ⟨d, c, _, _, _, h⟩ <;> rw [h] <;> rfl

/-- A dispatcher step with work left does one unit of it; delivery steps do
none. -/
theorem echoStep_work (sub : Subscribers) (a : Step) (st : EchoState) :
    work (echoStep sub a st) = work st - (if a = Step.dispatcher then 1 else 0) := by
  rcases st with ⟨rcv, q, rg, lv, pend, strt, dlv⟩
  cases a with
  | dispatcher =>
    rcases rg with _ | ⟨m, _ | ⟨r, rs⟩⟩ <;> rcases q with _ | ⟨m1, q⟩ <;>
      simp [echoStep, work, inHand] <;> ring_nf <;> omega
  | deliver i =>
    rcases echoStep_deliver sub i ⟨rcv, q, rg, lv, pend, strt, dlv⟩ with
      h | ⟨d, _, _, h⟩ | ⟨d, c, _, _, _, h⟩ <;> rw [h] <;> simp [work, inHand]

/-- What the dispatcher reaches by a step depends on what it had reached, not
on the subscribers nor on the progress of the deliveries. -/
theorem echoStep_view (sub sub1 : Subscribers) (a : Step) (st st1 : EchoState)
    (h : dispatcherView st = dispatcherView st1) :
    dispatcherView (echoStep sub a st) = dispatcherView (echoStep sub1 a st1) := by
  rcases st with ⟨rcv, q, rg, lv, pend, strt, dlv⟩
  rcases st1 with ⟨rcv1, q1, rg1, lv1, pend1, strt1, dlv1⟩
  simp only [dispatcherView, Prod.mk.injEq] at h
  obtain ⟨h1, h2, h3, h4, h5⟩ := h
  subst h1 h2 h3 h4 h5
  cases a with
  | dispatcher =>
    rcases rg with _ | ⟨m, _ | ⟨r, rs⟩⟩ <;> rcases q with _ | ⟨m1, q⟩ <;>
      simp [echoStep, dispatcherView]
  | deliver i =>
    have key : ∀ (s : Subscribers) (st : EchoState),
        dispatcherView (echoStep s (Step.deliver i) st) = dispatcherView st := by
      intro s st
      rcases echoStep_deliver s i st with
        h | ⟨d, _, _, h⟩ | ⟨d, c, _, _, _, h⟩ <;> rw [h] <;> rfl
    rw [key, key]
    rfl

theorem perm_cons_eraseIdx {α : Type} (l : List α) (i : Nat) (d : α) (h : l.get? i = some d) :
    l.Perm (d :: l.eraseIdx i) := by
  induction l generalizing i with
  | nil => simp at h
  | cons a l ih =>
    cases i with
    | zero => simp at h; subst h; simp
    | succ i =>
      simp at h
      simp only [List.eraseIdx_cons_succ]
      exact (List.Perm.cons a (ih i (by simpa using h))).trans (List.Perm.swap d a _)

/-- The goroutines started are those that have sent together with those still
pending: a goroutine sends once. -/
theorem echoStep_sends (sub : Subscribers) (a : Step) (st : EchoState)
    (h : (st.delivered.map Prod.snd ++ st.pending.map Delivery.msg).Perm
      (st.started.map Delivery.msg)) :
    ((echoStep sub a st).delivered.map Prod.snd
        ++ (echoStep sub a st).pending.map Delivery.msg).Perm
      ((echoStep sub a st).started.map Delivery.msg) := by
  rcases st with ⟨rcv, q, rg, lv, pend, strt, dlv⟩
  simp only at h
  cases a with
  | dispatcher =>
    rcases rg with _ | ⟨m, _ | ⟨r, rs⟩⟩ <;> rcases q with _ | ⟨m1, q⟩ <;>
      simp only [echoStep] <;> try exact h
    all_goals
      simp only [List.map_append, List.map_cons, List.map_nil, ← List.append_assoc]
      exact List.Perm.append_right _ h
  | deliver i =>
    rcases echoStep_deliver sub i ⟨rcv, q, rg, lv, pend, strt, dlv⟩ with
      hs | ⟨d, hd, _, hs⟩ | ⟨d, c, hd, _, _, hs⟩
    · rw [hs]
      exact h
    · rw [hs]
      simp only at hd ⊢
      rw [map_msg_set pend i d _ hd]
      exact h
    · rw [hs]
      simp only at hd ⊢
      simp only [List.map_append, List.map_cons, List.map_nil]
      refine List.Perm.trans ?_ h
      have hp := (perm_cons_eraseIdx pend i d hd).map Delivery.msg
      simp only [List.map_cons] at hp
      rw [List.append_assoc]
      exact List.Perm.append_left _ hp.symm

theorem echoRun_receivers (sub : Subscribers) (sched : List Step) (st : EchoState) :
    (echoRun sub sched st).receivers = st.receivers := by
  induction sched generalizing st with
  | nil => rfl
  | cons a sched ih =>
    simp only [echoRun, List.foldl_cons] at ih ⊢
    rw [ih, echoStep_receivers]

theorem echoRun_owed (sub : Subscribers) (sched : List Step) (st : EchoState) :
    owed (echoRun sub sched st) = owed st := by
  induction sched generalizing st with
  | nil => rfl
  | cons a sched ih =>
    simp only [echoRun, List.foldl_cons] at ih ⊢
    rw [ih, echoStep_owed]

theorem echoRun_work (sub : Subscribers) (sched : List Step) (st : EchoState) :
    work (echoRun sub sched st) = work st - sched.count Step.dispatcher := by
  induction sched generalizing st with
  | nil => rfl
  | cons a sched ih =>
    simp only [echoRun, List.foldl_cons] at ih ⊢
    rw [ih, echoStep_work]
    cases a with
    | dispatcher => simp [List.count_cons]; omega
    | deliver i => simp [List.count_cons]

theorem echoRun_view (sub sub1 : Subscribers) (sched : List Step) (st st1 : EchoState)
    (h : dispatcherView st = dispatcherView st1) :
    dispatcherView (echoRun sub sched st) = dispatcherView (echoRun sub1 sched st1) := by
  induction sched generalizing st st1 with
  | nil => exact h
  | cons a sched ih =>
    simp only [echoRun, List.foldl_cons] at ih ⊢
    exact ih _ _ (echoStep_view sub sub1 a st st1 h)

theorem echoRun_sends (sub : Subscribers) (sched : List Step) (st : EchoState)
    (h : (st.delivered.map Prod.snd ++ st.pending.map Delivery.msg).Perm
      (st.started.map Delivery.msg)) :
    ((echoRun sub sched st).delivered.map Prod.snd
        ++ (echoRun sub sched st).pending.map Delivery.msg).Perm
      ((echoRun sub sched st).started.map Delivery.msg) := by
  induction sched generalizing st with
  | nil => exact h
  | cons a sched ih =>
    simp only [echoRun, List.foldl_cons] at ih ⊢
    exact ih _ (echoStep_sends sub a st h)

theorem registerAll_receivers {W : Type} (n : QriNode W) (rs : List Nat) :
    (registerAll n rs).receivers = n.receivers ++ rs := by
  induction rs generalizing n with
  | nil => simp [registerAll]
  | cons r rs ih =>
    simp only [registerAll, List.foldl_cons] at ih ⊢
    rw [ih]
    simp [ReceiveMessages]

/-- With no work left, what is owed has all been started. -/
theorem started_of_work_zero (st : EchoState) (h : work st = 0) :
    st.msgChan = [] ∧ owed st = st.started.map Delivery.msg := by
  have h1 : (inHand st).length = 0 := by
    unfold work at h
    omega
  have h2 : st.msgChan.length = 0 := by
    unfold work at h
    have := Nat.eq_zero_of_add_eq_zero_left h
    rcases Nat.mul_eq_zero.mp this with h3 | h3
    · exact h3
    · omega
  have h3 : st.msgChan = [] := List.length_eq_zero.mp h2
  refine ⟨h3, ?_⟩
  simp [owed, List.length_eq_zero.mp h1, h3]

/-- A delivery goroutine parked on a channel that accepts completes its send
on that channel, whatever the other goroutines are waiting for. -/
theorem echoStep_deliver_ready (sub : Subscribers) (st : EchoState) (i : Nat) (d : Delivery)
    (c : Nat) (hd : st.pending.get? i = some d) (ho : d.operand = some (some c))
    (hs : canSend sub c st.delivered = true) :
    (echoStep sub (Step.deliver i) st).delivered = st.delivered ++ [(c, d.msg)]
    ∧ (echoStep sub (Step.deliver i) st).pending = st.pending.eraseIdx i := by
  simp only [echoStep, hd, ho, hs, if_true, and_self]

/-- A delivery goroutine parked on a channel that does not accept stays as it
is, parked on that channel. -/
theorem echoStep_deliver_blocked (sub : Subscribers) (st : EchoState) (i : Nat) (d : Delivery)
    (c : Nat) (hd : st.pending.get? i = some d) (ho : d.operand = some (some c))
    (hs : canSend sub c st.delivered = false) :
    echoStep sub (Step.deliver i) st = st := by
  simp only [echoStep, hd, ho, hs]
  simp

/-- The first step of a delivery goroutine evaluates its channel operand and
never waits. -/
theorem echoStep_deliver_fresh (sub : Subscribers) (st : EchoState) (i : Nat) (d : Delivery)
    (hd : st.pending.get? i = some d) (ho : d.operand = none) :
    ∃ x, (echoStep sub (Step.deliver i) st).pending = st.pending.set i { d with operand := some x }
      ∧ (echoStep sub (Step.deliver i) st).delivered = st.delivered :=
  ⟨st.loopVars.getD d.loopVar none, by simp only [echoStep, hd, ho, and_self]⟩

theorem mem_set_of_ne {α : Type} (l : List α) (j : Nat) (d d1 y : α) (hd : d ∈ l)
    (hj : l.get? j = some d1) (hne : d ≠ d1) : d ∈ l.set j y := by
  induction l generalizing j with
  | nil => simp at hd
  | cons a l ih =>
    cases j with
    | zero =>
      simp at hj
      subst hj
      rcases List.mem_cons.mp hd with h | h
      · exact absurd h hne
      · simp [h]
    | succ j =>
      simp at hj
      simp only [List.set_cons_succ, List.mem_cons]
      rcases List.mem_cons.mp hd with h | h
      · exact Or.inl h
      · exact Or.inr (ih j h (by simpa using hj))

theorem mem_eraseIdx_of_ne {α : Type} (l : List α) (j : Nat) (d d1 : α) (hd : d ∈ l)
    (hj : l.get? j = some d1) (hne : d ≠ d1) : d ∈ l.eraseIdx j := by
  induction l generalizing j with
  | nil => simp at hd
  | cons a l ih =>
    cases j with
    | zero =>
      simp at hj
      subst hj
      rcases List.mem_cons.mp hd with h | h
      · exact absurd h hne
      · simpa using h
    | succ j =>
      simp at hj
      simp only [List.eraseIdx_cons_succ, List.mem_cons]
      rcases List.mem_cons.mp hd with h | h
      · exact Or.inl h
      · exact Or.inr (ih j h (by simpa using hj))

/-- A goroutine that has evaluated its channel operand keeps it: after any
step of anybody it is still pending with the same operand, or it has sent its
message on that very channel. -/
theorem echoStep_parked (sub : Subscribers) (a : Step) (st : EchoState) (d : Delivery)
    (x : Option Nat) (hd : d ∈ st.pending) (hx : d.operand = some x) :
    d ∈ (echoStep sub a st).pending
    ∨ ∃ c, x = some c ∧ (echoStep sub a st).delivered = st.delivered ++ [(c, d.msg)] := by
  cases a with
  | dispatcher =>
    left
    rcases st with ⟨rcv, q, rg, lv, pend, strt, dlv⟩
    simp only at hd
    rcases rg with _ | ⟨m, _ | ⟨r, rs⟩⟩ <;> rcases q with _ | ⟨m1, q⟩ <;>
      simp [echoStep, hd]
  | deliver i =>
    rcases echoStep_deliver sub i st with hs | ⟨d1, hd1, ho1, hs⟩ | ⟨d1, c, hd1, ho1, _, hs⟩
    · rw [hs]
      exact Or.inl hd
    · rw [hs]
      left
      have hne : d ≠ d1 := by
        intro h
        rw [h, ho1] at hx
        cases hx
      exact mem_set_of_ne st.pending i d d1 _ hd hd1 hne
    · rw [hs]
      by_cases hne : d = d1
      · right
        refine ⟨c, ?_, by rw [hne]⟩
        rw [hne, ho1] at hx
        injection hx with hx
        exact hx.symm
      · left
        exact mem_eraseIdx_of_ne st.pending i d d1 hd hd1 hne

/-- C10, amended: with the subscriber channels registered by `ReceiveMessages`
before the messages arrive, and under every interleaving of the dispatcher
with the delivery goroutines: the receivers are the registered channels in
order; the dispatcher never waits for a subscriber (what it has reached does
not depend on which channels are drained or buffered); it starts one delivery
goroutine per registered receiver for each message, in the order the messages
arrived, and has started them all once it has taken enough steps; every
goroutine sends at most once, so that when none is pending each message has
been delivered as many times as there are receivers; a goroutine evaluates
its channel once, without waiting, and from then on stays on that channel
whatever anybody else does: it completes there as soon as that channel
accepts, and while it does not accept it alone stays parked. -/
theorem C10_fanout_one_goroutine_per_subscriber {W : Type} (n : QriNode W) (rs : List Nat)
    (msgs : List Message) (sched : List Step) (sub sub1 : Subscribers) :
    (registerAll n rs).receivers = n.receivers ++ rs
    ∧ dispatcherView (echoRun sub sched (echoInit (registerAll n rs).receivers msgs))
        = dispatcherView (echoRun sub1 sched (echoInit (registerAll n rs).receivers msgs))
    ∧ owed (echoRun sub sched (echoInit (registerAll n rs).receivers msgs))
        = msgs.flatMap (fun m => List.replicate (registerAll n rs).receivers.length m)
    ∧ (msgs.length * ((registerAll n rs).receivers.length + 1) ≤ sched.count Step.dispatcher →
        (echoRun sub sched (echoInit (registerAll n rs).receivers msgs)).msgChan = []
        ∧ (echoRun sub sched (echoInit (registerAll n rs).receivers msgs)).started.map Delivery.msg
            = msgs.flatMap (fun m => List.replicate (registerAll n rs).receivers.length m))
    ∧ ((echoRun sub sched (echoInit (registerAll n rs).receivers msgs)).delivered.map Prod.snd
          ++ (echoRun sub sched (echoInit (registerAll n rs).receivers msgs)).pending.map
              Delivery.msg).Perm
        ((echoRun sub sched (echoInit (registerAll n rs).receivers msgs)).started.map Delivery.msg)
    ∧ (msgs.length * ((registerAll n rs).receivers.length + 1) ≤ sched.count Step.dispatcher →
        (echoRun sub sched (echoInit (registerAll n rs).receivers msgs)).pending = [] →
        ((echoRun sub sched (echoInit (registerAll n rs).receivers msgs)).delivered.map
            Prod.snd).Perm
          (msgs.flatMap (fun m => List.replicate (registerAll n rs).receivers.length m)))
    ∧ (∀ i d,
        (echoRun sub sched (echoInit (registerAll n rs).receivers msgs)).pending.get? i = some d →
        d.operand = none →
        ∃ x, (echoStep sub (Step.deliver i)
              (echoRun sub sched (echoInit (registerAll n rs).receivers msgs))).pending
            = (echoRun sub sched (echoInit (registerAll n rs).receivers msgs)).pending.set i
                { d with operand := some x }
          ∧ (echoStep sub (Step.deliver i)
              (echoRun sub sched (echoInit (registerAll n rs).receivers msgs))).delivered
            = (echoRun sub sched (echoInit (registerAll n rs).receivers msgs)).delivered)
    ∧ (∀ i d c,
        (echoRun sub sched (echoInit (registerAll n rs).receivers msgs)).pending.get? i = some d →
        d.operand = some (some c) →
        canSend sub c (echoRun sub sched (echoInit (registerAll n rs).receivers msgs)).delivered
            = true →
        (echoStep sub (Step.deliver i)
            (echoRun sub sched (echoInit (registerAll n rs).receivers msgs))).delivered
          = (echoRun sub sched (echoInit (registerAll n rs).receivers msgs)).delivered
              ++ [(c, d.msg)]
        ∧ (echoStep sub (Step.deliver i)
            (echoRun sub sched (echoInit (registerAll n rs).receivers msgs))).pending
          = (echoRun sub sched (echoInit (registerAll n rs).receivers msgs)).pending.eraseIdx i)
    ∧ (∀ i d c,
        (echoRun sub sched (echoInit (registerAll n rs).receivers msgs)).pending.get? i = some d →
        d.operand = some (some c) →
        canSend sub c (echoRun sub sched (echoInit (registerAll n rs).receivers msgs)).delivered
            = false →
        echoStep sub (Step.deliver i)
            (echoRun sub sched (echoInit (registerAll n rs).receivers msgs))
          = echoRun sub sched (echoInit (registerAll n rs).receivers msgs))
    ∧ (∀ a d x,
        d ∈ (echoRun sub sched (echoInit (registerAll n rs).receivers msgs)).pending →
        d.operand = some x →
        d ∈ (echoStep sub a
              (echoRun sub sched (echoInit (registerAll n rs).receivers msgs))).pending
        ∨ ∃ c, x = some c
          ∧ (echoStep sub a
              (echoRun sub sched (echoInit (registerAll n rs).receivers msgs))).delivered
            = (echoRun sub sched (echoInit (registerAll n rs).receivers msgs)).delivered
                ++ [(c, d.msg)]) := by
  have howed : owed (echoRun sub sched (echoInit (registerAll n rs).receivers msgs))
      = msgs.flatMap (fun m => List.replicate (registerAll n rs).receivers.length m) := by
    rw [echoRun_owed]
    simp [owed, echoInit, inHand]
  have hdone : msgs.length * ((registerAll n rs).receivers.length + 1)
        ≤ sched.count Step.dispatcher →
      (echoRun sub sched (echoInit (registerAll n rs).receivers msgs)).msgChan = []
      ∧ (echoRun sub sched (echoInit (registerAll n rs).receivers msgs)).started.map Delivery.msg
          = msgs.flatMap (fun m => List.replicate (registerAll n rs).receivers.length m) := by
    intro h
    have hw : work (echoRun sub sched (echoInit (registerAll n rs).receivers msgs)) = 0 := by
      rw [echoRun_work]
      simp only [work, echoInit, inHand, List.length_nil, Nat.zero_add]
      omega
    obtain ⟨h1, h2⟩ := started_of_work_zero _ hw
    exact ⟨h1, by rw [← h2, howed]⟩
  have hsends := echoRun_sends sub sched (echoInit (registerAll n rs).receivers msgs)
    (by simp [echoInit])
  refine ⟨registerAll_receivers n rs, ?_, howed, hdone, hsends, ?_, ?_, ?_, ?_, ?_⟩
  · exact echoRun_view sub sub1 sched _ _ rfl
  · intro h hp
    rw [hp, (hdone h).2] at hsends
    simpa using hsends
  · intro i d hd ho
    exact echoStep_deliver_fresh sub _ i d hd ho
  · intro i d c hd ho hs
    exact echoStep_deliver_ready sub _ i d c hd ho hs
  · intro i d c hd ho hs
    exact echoStep_deliver_blocked sub _ i d c hd ho hs
  · intro a d x hd hx
    exact echoStep_parked sub a _ d x hd hx

/-- C10 at a concrete input: two subscribers, one message, the dispatcher
taking its three steps and both deliveries completing. -/
theorem C10_fanout_one_goroutine_per_subscriber_witness :
    (echoRun allDrained
        [Step.dispatcher, Step.dispatcher, Step.deliver 0, Step.deliver 0, Step.dispatcher,
          Step.deliver 0, Step.deliver 0]
        (echoInit (registerAll offlineNode [7, 8]).receivers [ping])).msgChan = []
    ∧ (echoRun allDrained
        [Step.dispatcher, Step.dispatcher, Step.deliver 0, Step.deliver 0, Step.dispatcher,
          Step.deliver 0, Step.deliver 0]
        (echoInit (registerAll offlineNode [7, 8]).receivers [ping])).started.map Delivery.msg
      = [ping].flatMap (fun m => List.replicate (registerAll offlineNode [7, 8]).receivers.length m) :=
  (C10_fanout_one_goroutine_per_subscriber offlineNode [7, 8] [ping]
    [Step.dispatcher, Step.dispatcher, Step.deliver 0, Step.deliver 0, Step.dispatcher,
      Step.deliver 0, Step.deliver 0]
    allDrained allDrained).2.2.2.1 (by decide)

/-- C10 as stated fails: one subscriber on channel 7 that keeps receiving, two
messages arriving in the order `ping`, `ping2`; when the goroutine started for
the second message runs (evaluates its channel, sends) before the one started
for the first, the subscriber receives `ping2` before `ping`. -/
theorem C10_arrival_order_not_preserved :
    (registerAll offlineNode [7]).receivers = [7]
    ∧ subscriberLog 7 (echoRun allDrained
        [Step.dispatcher, Step.dispatcher, Step.dispatcher, Step.dispatcher,
          Step.deliver 1, Step.deliver 1, Step.deliver 0, Step.deliver 0]
        (echoInit (registerAll offlineNode [7]).receivers [ping, ping2])) = [ping2, ping]
    ∧ (echoRun allDrained
        [Step.dispatcher, Step.dispatcher, Step.dispatcher, Step.dispatcher,
          Step.deliver 1, Step.deliver 1, Step.deliver 0, Step.deliver 0]
        (echoInit (registerAll offlineNode [7]).receivers [ping, ping2])).pending = [] := by
  decide

/-- The variable `r` of the range statement is one variable for all its
iterations: two subscribers on channels 7 and 8, one message; when both
goroutines evaluate their channel after the loop has moved on to the second
receiver, both send on channel 8 and channel 7 gets nothing. -/
theorem echo_range_variable_shared :
    (echoRun allDrained
        [Step.dispatcher, Step.dispatcher, Step.dispatcher, Step.deliver 0, Step.deliver 0,
          Step.deliver 0, Step.deliver 0]
        (echoInit [7, 8] [ping])).delivered = [(8, ping), (8, ping)] := by
  decide

/-- A goroutine parked on a channel nobody receives from stays on that
channel: with only channel 8 drained, the goroutine that evaluated its channel
while `r` was 7 is still parked on 7 after `r` has become 8 and after it was
scheduled again; the other goroutine delivers on 8 meanwhile. -/
theorem echo_parked_sender_keeps_its_channel :
    (echoRun onlyEight
        [Step.dispatcher, Step.dispatcher, Step.deliver 0, Step.dispatcher, Step.deliver 0,
          Step.deliver 1, Step.deliver 1, Step.deliver 0]
        (echoInit [7, 8] [ping])).delivered = [(8, ping)]
    ∧ (echoRun onlyEight
        [Step.dispatcher, Step.dispatcher, Step.deliver 0, Step.dispatcher, Step.deliver 0,
          Step.deliver 1, Step.deliver 1, Step.deliver 0]
        (echoInit [7, 8] [ping])).pending
      = [{ loopVar := 0, msg := ping, operand := some (some 7) }] := by
  decide

theorem dispatches_append (a b : List Event) :
    dispatches (a ++ b) = dispatches a ++ dispatches b := by
  simp [dispatches]

theorem dispatches_postsOf (replies : Option Nat) (m : Message) :
    dispatches (postsOf replies m) = [Event.postMsgChan m] := by
  cases replies <;> simp [postsOf, dispatches]

/-- The handler calls of the receive loop are the truncation of the claim. -/
theorem handled_handleStream {W : Type} (n : QriNode W) (ws : Nat) (replies : Option Nat)
    (script : List RecvResult) (w : W) :
    handled (handleStream n ws replies script w).events = truncatedAtStop n ws script w := by
  induction script generalizing w with
  | nil => simp [handleStream, truncatedAtStop, handled]
  | cons r script ih =>
    cases r with
    | error e =>
      rw [(handleStream_error n ws replies e script w).2.2.2]
      by_cases he : e = "EOF" <;> simp [he, handled, truncatedAtStop]
    | msg m =>
      rw [truncatedAtStop]
      cases hl : n.handlers.lookup m.Typ with
      | none =>
        rw [handleStream_unknown n ws replies m script w hl]
        simp only [handled_append, handled_postsOf]
        simp [handled]
      | some handler =>
        cases hh : (handler ws m w).1 with
        | true =>
          rw [handleStream_hangup n ws replies m script w handler hl hh]
          simp only [handled_append, handled_postsOf]
          simp [handled, hh]
        | false =>
          rw [handleStream_continue n ws replies m script w handler hl hh]
          simp only [handled_append, handled_postsOf, ih]
          simp [handled, hh]

/-- The receive loop asks for the results in order and skips none: what it
received followed by what it left unread is the whole sequence; and it posts
every message it received to the fan-out, in order. -/
theorem receives_handleStream {W : Type} (n : QriNode W) (ws : Nat) (replies : Option Nat)
    (script : List RecvResult) (w : W) :
    receives (handleStream n ws replies script w).events
        ++ (handleStream n ws replies script w).unread = script
    ∧ fanout (handleStream n ws replies script w).events
        = msgsOf (receives (handleStream n ws replies script w).events) := by
  induction script generalizing w with
  | nil => simp [handleStream, receives, fanout, msgsOf]
  | cons r script ih =>
    cases r with
    | error e =>
      obtain ⟨_, h2, _, h4⟩ := handleStream_error n ws replies e script w
      rw [h4, h2]
      by_cases he : e = "EOF" <;> simp [he, receives, fanout, msgsOf]
    | msg m =>
      cases hl : n.handlers.lookup m.Typ with
      | none =>
        rw [handleStream_unknown n ws replies m script w hl]
        simp only [receives_append, receives_postsOf, fanout_append, fanout_postsOf]
        simp [receives, fanout, msgsOf]
      | some handler =>
        cases hh : (handler ws m w).1 with
        | true =>
          rw [handleStream_hangup n ws replies m script w handler hl hh]
          simp only [receives_append, receives_postsOf, fanout_append, fanout_postsOf]
          simp [receives, fanout, msgsOf]
        | false =>
          rw [handleStream_continue n ws replies m script w handler hl hh]
          obtain ⟨h1, h2⟩ := ih (handler ws m w).2
          simp only [receives_append, receives_postsOf, fanout_append, fanout_postsOf, h2]
          constructor
          · simpa [receives] using h1
          · simp [receives, fanout, msgsOf]

/-- The fan-out posts and the handler calls alternate, message by message in
the order received: the post of a message, then its handler; at most one
message at the end is posted without a handler call. While the loop has not
returned, every result so far was a message and was handled. -/
theorem dispatches_handleStream {W : Type} (n : QriNode W) (ws : Nat) (replies : Option Nat)
    (script : List RecvResult) (w : W) :
    ∃ tail : List Message, tail.length ≤ 1
      ∧ msgsOf (receives (handleStream n ws replies script w).events)
          = handled (handleStream n ws replies script w).events ++ tail
      ∧ dispatches (handleStream n ws replies script w).events
          = (handled (handleStream n ws replies script w).events).flatMap
              (fun m => [Event.postMsgChan m, Event.handle m.Typ m])
            ++ tail.map Event.postMsgChan
      ∧ ((handleStream n ws replies script w).status = LoopStatus.blocked →
          tail = []
          ∧ script = (handled (handleStream n ws replies script w).events).map RecvResult.msg) := by
  induction script generalizing w with
  | nil => exact ⟨[], by simp [handleStream, receives, handled, msgsOf, dispatches]⟩
  | cons r script ih =>
    cases r with
    | error e =>
      obtain ⟨h1, _, _, h4⟩ := handleStream_error n ws replies e script w
      refine ⟨[], ?_⟩
      rw [h4, h1]
      by_cases he : e = "EOF" <;> simp [he, receives, handled, msgsOf, dispatches]
    | msg m =>
      cases hl : n.handlers.lookup m.Typ with
      | none =>
        refine ⟨[m], ?_⟩
        rw [handleStream_unknown n ws replies m script w hl]
        simp only [receives_append, receives_postsOf, handled_append, handled_postsOf,
          dispatches_append, dispatches_postsOf]
        simp [receives, handled, msgsOf, dispatches]
      | some handler =>
        cases hh : (handler ws m w).1 with
        | true =>
          refine ⟨[], ?_⟩
          rw [handleStream_hangup n ws replies m script w handler hl hh]
          simp only [receives_append, receives_postsOf, handled_append, handled_postsOf,
            dispatches_append, dispatches_postsOf]
          simp [receives, handled, msgsOf, dispatches]
        | false =>
          obtain ⟨tail, h1, h2, h3, h4⟩ := ih (handler ws m w).2
          refine ⟨tail, h1, ?_⟩
          rw [handleStream_continue n ws replies m script w handler hl hh]
          simp only [receives_append, receives_postsOf, handled_append, handled_postsOf,
            dispatches_append, dispatches_postsOf]
          refine ⟨?_, ?_, ?_⟩
          · have e1 : receives [Event.handle m.Typ m] = [] := by simp [receives]
            have e2 : handled [Event.handle m.Typ m] = [m] := by simp [handled]
            rw [e1, e2]
            simp only [List.append_nil, List.nil_append]
            have e3 : ∀ l, msgsOf ([RecvResult.msg m] ++ l) = m :: msgsOf l := by
              intro l
              simp [msgsOf]
            rw [e3, h2]
            rfl
          · have e2 : handled [Event.handle m.Typ m] = [m] := by simp [handled]
            have e4 : dispatches [Event.handle m.Typ m] = [Event.handle m.Typ m] := by
              simp [dispatches]
            rw [e2, e4, h3]
            simp [List.flatMap]
          · intro hb
            obtain ⟨h5, h6⟩ := h4 hb
            have e2 : handled [Event.handle m.Typ m] = [m] := by simp [handled]
            refine ⟨h5, ?_⟩
            rw [e2]
            simp only [List.nil_append, List.singleton_append, List.map_cons]
            rw [← h6]

/-- C11: for every finite sequence of receive results, the handler calls of
`handleStream` are the received sequence cut at the first receive error (left
out), the first message of unregistered type (left out) or the first message
whose handler answers `hangup = true` (kept); the loop asks for the results in
order and skips none; it issues one fan-out post for every message received,
in that order; and posts and handler calls alternate message by message (the
post of a message, then its handler), with at most one message at the end
posted and not handled, so that nothing is skipped, repeated or reordered. -/
theorem C11_dispatch_in_receive_order {W : Type} (n : QriNode W) (ws : Nat)
    (replies : Option Nat) (script : List RecvResult) (w : W) :
    handled (handleStream n ws replies script w).events = truncatedAtStop n ws script w
    ∧ receives (handleStream n ws replies script w).events
        ++ (handleStream n ws replies script w).unread = script
    ∧ fanout (handleStream n ws replies script w).events
        = msgsOf (receives (handleStream n ws replies script w).events)
    ∧ (∃ tail : List Message, tail.length ≤ 1
      ∧ msgsOf (receives (handleStream n ws replies script w).events)
          = handled (handleStream n ws replies script w).events ++ tail
      ∧ dispatches (handleStream n ws replies script w).events
          = (handled (handleStream n ws replies script w).events).flatMap
              (fun m => [Event.postMsgChan m, Event.handle m.Typ m])
            ++ tail.map Event.postMsgChan
      ∧ ((handleStream n ws replies script w).status = LoopStatus.blocked →
          tail = []
          ∧ script
            = (handled (handleStream n ws replies script w).events).map RecvResult.msg)) :=
  ⟨handled_handleStream n ws replies script w,
    (receives_handleStream n ws replies script w).1,
    (receives_handleStream n ws replies script w).2,
    dispatches_handleStream n ws replies script w⟩

/-- C11 at a concrete input: two pings, a message of unregistered type, and a
ping after it: the two pings are handled, in order, and nothing else. -/
theorem C11_dispatch_in_receive_order_witness :
    handled (handleStream demoNode 3 none
        [RecvResult.msg ping, RecvResult.msg ping2, RecvResult.msg strayMsg,
          RecvResult.msg ping] 0).events
      = [ping, ping2] :=
  (C11_dispatch_in_receive_order demoNode 3 none
    [RecvResult.msg ping, RecvResult.msg ping2, RecvResult.msg strayMsg,
      RecvResult.msg ping] 0).1.trans (by decide)

/-- The range loop of `PeerIDs` from any ids already collected. -/
theorem peerIDs_foldl (IDB58Decode : String → Except String PeerID)
    (m : List (String × List String)) (acc : List PeerID) :
    m.foldl (fun ids kv =>
        match IDB58Decode kv.1 with
        | Except.ok id => ids ++ [id]
        | Except.error _ => ids) acc
      = acc ++ (m.map Prod.fst).filterMap (decoded IDB58Decode) := by
  induction m generalizing acc with
  | nil => simp
  | cons kv m ih =>
    simp only [List.foldl_cons, List.map_cons]
    rw [ih]
    cases hd : IDB58Decode kv.1 with
    | error e => simp [List.filterMap_cons, decoded, hd]
    | ok id => simp [List.filterMap_cons, decoded, hd]

/-- The ids of `PeerIDs` are the decoded ids of the keys that decode, one per
key, in the order the keys are visited. -/
theorem peerIDs_eq (IDB58Decode : String → Except String PeerID) (p : Profile) :
    PeerIDs IDB58Decode p = (addressKeys p).filterMap (decoded IDB58Decode) := by
  unfold PeerIDs addressKeys
  cases p.Addresses with
  | none => rfl
  | some m => simpa using peerIDs_foldl IDB58Decode m []

theorem length_filterMap_eq_filter {α β : Type} (f : α → Option β) (l : List α) :
    (l.filterMap f).length = (l.filter (fun a => (f a).isSome)).length := by
  induction l with
  | nil => rfl
  | cons a l ih =>
    cases h : f a <;> simp [List.filterMap_cons, List.filter_cons, h, ih]

/-- C12: for every profile, `PeerIDs` returns the decoded id of each key of
`Addresses` that decodes, one per such key and in the order the keys are
visited, and nothing for the keys that do not decode: an id is returned
exactly when some key decodes to it, and there are as many ids as keys that
decode; so when every key decodes there are as many ids as keys; a nil or
empty map gives the empty result; and visiting the map in another order gives
the same ids up to order. -/
theorem C12_peerIDs_decoded_keys (IDB58Decode : String → Except String PeerID) (p : Profile) :
    PeerIDs IDB58Decode p = (addressKeys p).filterMap (decoded IDB58Decode)
    ∧ (PeerIDs IDB58Decode p).length
        = ((addressKeys p).filter (fun k => (decoded IDB58Decode k).isSome)).length
    ∧ (∀ id, id ∈ PeerIDs IDB58Decode p ↔ ∃ k ∈ addressKeys p, IDB58Decode k = Except.ok id)
    ∧ ((∀ k ∈ addressKeys p, ∃ id, IDB58Decode k = Except.ok id) →
        (PeerIDs IDB58Decode p).length = (addressKeys p).length)
    ∧ ((p.Addresses = none ∨ p.Addresses = some []) → PeerIDs IDB58Decode p = [])
    ∧ (∀ m m1, p.Addresses = some m → m.Perm m1 →
        (PeerIDs IDB58Decode p).Perm (PeerIDs IDB58Decode { p with Addresses := some m1 })) := by
  have heq := peerIDs_eq IDB58Decode p
  refine ⟨heq, ?_, ?_, ?_, ?_, ?_⟩
  · rw [heq, length_filterMap_eq_filter]
  · intro id
    rw [heq, List.mem_filterMap]
    constructor
    · rintro ⟨k, hk, hd⟩
      refine ⟨k, hk, ?_⟩
      unfold decoded at hd
      cases hx : IDB58Decode k with
      | error e => simp [hx] at hd
      | ok id1 =>
        simp only [hx, Option.some.injEq] at hd
        rw [hd]
    · rintro ⟨k, hk, hd⟩
      exact ⟨k, hk, by simp [decoded, hd]⟩
  · intro hall
    rw [heq, length_filterMap_eq_filter, List.filter_eq_self.mpr]
    intro k hk
    obtain ⟨id, hid⟩ := hall k hk
    simp [decoded, hid]
  · rintro (h | h) <;> simp [PeerIDs, h]
  · intro m m1 hm hperm
    rw [heq, peerIDs_eq]
    simp only [addressKeys, hm]
    exact (hperm.map Prod.fst).filterMap _

/-- C12 at a concrete input: a profile whose two keys both decode. -/
theorem C12_peerIDs_decoded_keys_witness :
    (PeerIDs demoDecode (profileWith (some [("QmA", ["/ip4/1.2.3.4/tcp/4001"]), ("QmB", [])]))).length
      = (addressKeys (profileWith (some [("QmA", ["/ip4/1.2.3.4/tcp/4001"]), ("QmB", [])]))).length :=
  (C12_peerIDs_decoded_keys demoDecode
    (profileWith (some [("QmA", ["/ip4/1.2.3.4/tcp/4001"]), ("QmB", [])]))).2.2.2.1
    (by
      intro k hk
      simp only [addressKeys, profileWith, List.map_cons, List.map_nil, List.mem_cons,
        List.mem_singleton, List.not_mem_nil, or_false] at hk
      rcases hk with h | h
      · exact ⟨"QmA", by rw [h]; rfl⟩
      · exact ⟨"QmB", by rw [h]; rfl⟩)

end Qri
